import Mathlib

/-!
Verification development for the `log-parser` repository.

The development shallowly embeds the two components the claims concern:

* the regex-driven event extractor of `src/fetch-date.ts` (third section of
  the file: `parseLogLine`, `extractTimeFromMessage`, `extractTimeRange`,
  `combineInt`, the keyword predicates, `parseEntry`, `parseLogFile`);
* the daily aggregation engine (`matchSessions` of `src/aggregator.ts` and
  the per-date sleep classification / reclassification / totals of the
  `aggregateByDay` variant in the unnamed source file `part_001`).

Modelling conventions:

* Timestamps are minutes on a single linear timeline (`Int`); a calendar day
  is `t / 1440` (floor division), the minute of day is `t % 1440`, matching
  JavaScript `Date` / dayjs arithmetic on a uniform local timeline.
  Calendar dates entering through `new Date(y, m, d, hh, mm)` are converted
  with the standard civil-from-date formula, including JavaScript's
  normalisation of out-of-range fields.
* Messages are Lean `String`s; the JavaScript regular expressions are
  embedded through a small backtracking matcher over `List Char` whose
  word-boundary (`\b`), whitespace (`\s`) and digit (`\d`) classes follow the
  ASCII semantics of non-unicode JavaScript regexes.  Test-only regexes use
  the generic matcher; the three capturing regexes (time, time range, weight)
  are transcribed directly with the same leftmost-match and greedy-first
  backtracking order as the JavaScript engine.
* JavaScript `Array.prototype.sort` is modelled by `List.insertionSort` (any
  comparison sort agrees on the sortedness facts proved below).
-/

/-! ### Characters, word boundaries, lowercasing -/

/-- JavaScript `\w` (ASCII word character: letter, digit or underscore). -/
def isWordChar (c : Char) : Bool :=
  let n := c.toNat
  (97 ≤ n && n ≤ 122) || (65 ≤ n && n ≤ 90) || (48 ≤ n && n ≤ 57) || n == 95

/-- JavaScript `\d`. -/
def isDigitChar (c : Char) : Bool :=
  let n := c.toNat
  48 ≤ n && n ≤ 57

/-- JavaScript `\s`, restricted to the ASCII whitespace characters. -/
def isSpaceChar (c : Char) : Bool :=
  let n := c.toNat
  n == 32 || n == 9 || n == 10 || n == 13 || n == 11 || n == 12

/-- `String.prototype.trim` over the character list (ASCII whitespace). -/
def trimChars (l : List Char) : List Char :=
  ((l.dropWhile isSpaceChar).reverse.dropWhile isSpaceChar).reverse

/-- `line.trim()`. -/
def jsTrim (s : String) : String := String.mk (trimChars s.data)

/-- Numeric value of a digit character. -/
def digitVal (c : Char) : Nat := c.toNat - 48

/-- `String.prototype.toLowerCase`, covering ASCII letters and the Romanian
diacritics that occur in the source keyword lists. -/
def lowerChar (c : Char) : Char :=
  let n := c.toNat
  if 65 ≤ n && n ≤ 90 then Char.ofNat (n + 32)
  else if n == 0xC2 then Char.ofNat 0xE2        -- Â → â
  else if n == 0xCE then Char.ofNat 0xEE        -- Î → î
  else if n == 0x102 then Char.ofNat 0x103      -- Ă → ă
  else if n == 0x218 then Char.ofNat 0x219      -- Ș → ș
  else if n == 0x21A then Char.ofNat 0x21B      -- Ț → ț
  else c

def lowerChars (l : List Char) : List Char := l.map lowerChar

/-- Word/non-word status of an optional character (`none` = outside the
string, which counts as non-word for `\b`). -/
def isWordOpt : Option Char → Bool
  | some c => isWordChar c
  | none => false

/-- A `\b` boundary holds between `prev` and `next` iff exactly one side is a
word character. -/
def atBoundary (prev next : Option Char) : Bool :=
  isWordOpt prev != isWordOpt next

/-! ### A miniature regex matcher for the test-only patterns -/

/-- The fragment of JavaScript regex syntax used by the boolean (`test`)
patterns of the extractor. -/
inductive RE where
  | lit (s : List Char)                    -- a literal string
  | anyOf (xs : List (List Char))          -- alternation of literals
  | seq (a b : RE)                         -- concatenation
  | opt (a : RE)                           -- `(...)?`
  | starSp                                 -- `\s*`
  | plusSp                                 -- `\s+`
  | digit                                  -- `\d`
  | wb                                     -- `\b`

/-- Consume a literal; returns the rest and the new previous character. -/
def eatLit : List Char → Option Char → List Char → Option (Option Char × List Char)
  | [], prev, l => some (prev, l)
  | c :: cs, _, x :: xs => if c == x then eatLit cs (some x) xs else none
  | _ :: _, _, [] => none

/-- Greedy `\s*` with backtracking: try consuming more first, then less. -/
def runStarSp (prev : Option Char) (l : List Char)
    (k : Option Char → List Char → Bool) : Bool :=
  match l with
  | [] => k prev []
  | x :: xs =>
    if isSpaceChar x then runStarSp (some x) xs k || k prev (x :: xs)
    else k prev (x :: xs)

mutual

/-- Backtracking matcher: `runRE r prev l k` holds iff some prefix of `l` is
matched by `r` (with `prev` the character preceding `l`, for `\b`) and the
continuation `k` accepts the remainder. -/
def runRE : RE → Option Char → List Char → (Option Char → List Char → Bool) → Bool
  | .lit s, prev, l, k =>
    match eatLit s prev l with
    | some (p, rest) => k p rest
    | none => false
  | .anyOf xs, prev, l, k => runAlts xs prev l k
  | .seq a b, prev, l, k => runRE a prev l (fun p r => runRE b p r k)
  | .opt a, prev, l, k => runRE a prev l k || k prev l
  | .starSp, prev, l, k => runStarSp prev l k
  | .plusSp, _, l, k =>
    match l with
    | [] => false
    | x :: xs => isSpaceChar x && runStarSp (some x) xs k
  | .digit, _, l, k =>
    match l with
    | [] => false
    | x :: xs => isDigitChar x && k (some x) xs
  | .wb, prev, l, k => atBoundary prev l.head? && k prev l

/-- Try each alternative literal in turn. -/
def runAlts : List (List Char) → Option Char → List Char → (Option Char → List Char → Bool) → Bool
  | [], _, _, _ => false
  | s :: ss, prev, l, k =>
    (match eatLit s prev l with
     | some (p, rest) => k p rest
     | none => false) || runAlts ss prev l k

end

/-- Try to match starting at every position, leftmost first (the semantics of
`RegExp.prototype.test`). -/
def reTestFrom (r : RE) : Option Char → List Char → Bool
  | prev, l =>
    runRE r prev l (fun _ _ => true) ||
      match l with
      | [] => false
      | x :: xs => reTestFrom r (some x) xs

/-- `new RegExp(r).test(s)`. -/
def reTest (r : RE) (s : List Char) : Bool := reTestFrom r none s

/-- Shorthand: a parenthesised word alternation enclosed in `\b ... \b`. -/
def wordAlt (xs : List String) : RE :=
  .seq .wb (.seq (.anyOf (xs.map String.data)) .wb)

/-! ### The keyword predicates of `src/fetch-date.ts` -/

/-- `/\b(papa|papica|papics|papatil|mâncat|biberon)\b/` on the lowercased
message (`isFeedMessage`). -/
def feedRe : RE := wordAlt ["papa", "papica", "papics", "papatil", "mâncat", "biberon"]

/-- `/\b(somn|somnic|dormit|trezit|adormit)\b/` (`isSleepMessage`). -/
def sleepRe : RE := wordAlt ["somn", "somnic", "dormit", "trezit", "adormit"]

/-- `/\b(start|stat|incercam|inceput|tentativa|continuam|continuat)\b/`
(`isStartIndicator`). -/
def startRe : RE := wordAlt ["start", "stat", "incercam", "inceput", "tentativa", "continuam", "continuat"]

/-- `/\b(stop|gata|terminat|pauza|trezit)\b/` (`isStopIndicator`). -/
def stopRe : RE := wordAlt ["stop", "gata", "terminat", "pauza", "trezit"]

/-- `/\bschimb(at|uri|)?\b/` (`isDiaperChange`); the optional empty-capable
group is expressed through `opt`. -/
def diaperRe : RE :=
  .seq .wb (.seq (.lit "schimb".data) (.seq (.opt (.anyOf ["at".data, "uri".data])) .wb))

/-- `/\b(pipi|pisu|pipu)\b/` (wet token). -/
def wetRe : RE := wordAlt ["pipi", "pisu", "pipu"]

/-- `/\b(caca|pârț|partz)\b/` (dirty token). -/
def dirtyRe : RE := wordAlt ["caca", "pârț", "partz"]

/-- `/\b(cantarit|greutate)\b/` (weight keyword). -/
def weightKeyRe : RE := wordAlt ["cantarit", "greutate"]

/-- `/\bdormit\b/`. -/
def dormitRe : RE := .seq .wb (.seq (.lit "dormit".data) .wb)

/-- `/\b(somn|somnic)\s+\d/`. -/
def somnDigitRe : RE :=
  .seq .wb (.seq (.anyOf ["somn".data, "somnic".data]) (.seq .plusSp .digit))

/-- `/\b(stop|gata|terminat)\s+(papa|papica)\b/` (combined-message feed stop). -/
def feedStopRe : RE :=
  .seq .wb (.seq (.anyOf ["stop".data, "gata".data, "terminat".data])
    (.seq .plusSp (.seq (.anyOf ["papa".data, "papica".data]) .wb)))

/-- `/\bstart\s+(papa|papica)\b/` (combined-message feed start). -/
def feedStartRe : RE :=
  .seq .wb (.seq (.lit "start".data)
    (.seq .plusSp (.seq (.anyOf ["papa".data, "papica".data]) .wb)))

/-- `/\b(stop|trezit)\s*(somn|somnic)?\b/` (combined-message sleep stop). -/
def sleepStopRe : RE :=
  .seq .wb (.seq (.anyOf ["stop".data, "trezit".data])
    (.seq .starSp (.seq (.opt (.anyOf ["somn".data, "somnic".data])) .wb)))

/-- `/\b(start|incercam)\s+(somn|somnic)\b/` (combined-message sleep start,
first disjunct; the second disjunct reuses `somnDigitRe`). -/
def sleepStartRe : RE :=
  .seq .wb (.seq (.anyOf ["start".data, "incercam".data])
    (.seq .plusSp (.seq (.anyOf ["somn".data, "somnic".data]) .wb)))

/-- `message.toLowerCase()` as a character list. -/
def lowerOf (m : String) : List Char := lowerChars m.data

def isFeedMessage (m : String) : Bool := reTest feedRe (lowerOf m)

def isSleepMessage (m : String) : Bool := reTest sleepRe (lowerOf m)

def isStartIndicator (m : String) : Bool := reTest startRe (lowerOf m)

def isStopIndicator (m : String) : Bool := reTest stopRe (lowerOf m)

def isDiaperChange (m : String) : Bool := reTest diaperRe (lowerOf m)

def hasWetToken (m : String) : Bool := reTest wetRe (lowerOf m)

def hasDirtyToken (m : String) : Bool := reTest dirtyRe (lowerOf m)

/-! ### Substring search (`String.prototype.includes` / `indexOf`) -/

def listStartsWith : List Char → List Char → Bool
  | [], _ => true
  | _ :: _, [] => false
  | c :: cs, x :: xs => c == x && listStartsWith cs xs

def containsSub (needle : List Char) : List Char → Bool
  | [] => listStartsWith needle []
  | x :: xs => listStartsWith needle (x :: xs) || containsSub needle xs

/-- `hay.indexOf(needle)`: first index, or `-1`. -/
def indexOfSubAux (needle : List Char) : List Char → Nat → Int
  | [], i => if listStartsWith needle [] then (i : Int) else -1
  | x :: xs, i =>
    if listStartsWith needle (x :: xs) then (i : Int)
    else indexOfSubAux needle xs (i + 1)

def indexOfSub (hay needle : List Char) : Int := indexOfSubAux needle hay 0

/-- The deleted-message guard of `parseEntry`. -/
def isDeletedMessage (m : String) : Bool :=
  containsSub "this message was deleted".data (lowerOf m) ||
    containsSub "you deleted this message".data (lowerOf m)

/-! ### Timeline model -/

/-- Timestamps are minutes (`Int`) on a linear timeline. -/
def dayOf (t : Int) : Int := t / 1440

/-- Minute of day (`0 ≤ _ < 1440`). -/
def minOfDay (t : Int) : Int := t % 1440

/-- `Date.prototype.getHours`. -/
def hourOf (t : Int) : Int := minOfDay t / 60

/-- Days since 1970-01-01 of the civil date `(y, m, d)` with `1 ≤ m ≤ 12`
(the standard days-from-civil formula; `d` may be out of range, shifting the
result linearly exactly as JavaScript normalises it). -/
def daysFromCivil (y m d : Int) : Int :=
  let y' := if m ≤ 2 then y - 1 else y
  let era := y' / 400
  let yoe := y' - era * 400
  let mp := (m + 9) % 12
  let doy := (153 * mp + 2) / 5 + d - 1
  let doe := yoe * 365 + yoe / 4 - yoe / 100 + doy
  era * 146097 + doe - 719468

/-- `new Date(y, monthIndex, d, hh, mm).getTime()` in minutes, including
JavaScript's normalisation of out-of-range month / day / time fields. -/
def jsDateValue (y monthIndex d hh mm : Int) : Int :=
  let ny := y + monthIndex / 12
  let nm := monthIndex % 12 + 1
  daysFromCivil ny nm d * 1440 + hh * 60 + mm

/-! ### Time extraction (`extractTimeFromMessage`, `extractTimeRange`) -/

/-- An extracted `HH:MM` pair («hour» may be any 1–2 digit number, as in the
source regexes). -/
structure Hm where
  hour : Nat
  minute : Nat
deriving DecidableEq, Repr

/-- After the colon of `(\d{1,2}):\s*(\d{2})(?!\d)`: skip spaces greedily,
read exactly two digits not followed by a third. -/
def timeMinutesAt (l : List Char) : Option Nat :=
  match l.dropWhile isSpaceChar with
  | c :: d :: rest =>
    if isDigitChar c && isDigitChar d &&
        !(match rest with | e :: _ => isDigitChar e | [] => false) then
      some (10 * digitVal c + digitVal d)
    else none
  | _ => none

/-- Try `/(\d{1,2}):\s*(\d{2})(?!\d)/` anchored at this position: the
two-digit hour is attempted first, then the one-digit hour (the JavaScript
backtracking order; the two shapes are mutually exclusive). -/
def timeAt (l : List Char) : Option Hm :=
  match l with
  | a :: b :: rest =>
    if isDigitChar a && isDigitChar b then
      match rest with
      | ':' :: rest' =>
        match timeMinutesAt rest' with
        | some mm => some ⟨10 * digitVal a + digitVal b, mm⟩
        | none => none
      | _ => none
    else if isDigitChar a && b == ':' then
      match timeMinutesAt rest with
      | some mm => some ⟨digitVal a, mm⟩
      | none => none
    else none
  | _ => none

/-- Leftmost match of the time regex. -/
def scanTime : List Char → Option Hm
  | [] => none
  | x :: xs =>
    match timeAt (x :: xs) with
    | some t => some t
    | none => scanTime xs

/-- `extractTimeFromMessage` (`/(\d{1,2}):\s*(\d{2})(?!\d)/`). -/
def extractTimeFromMessage (m : String) : Option Hm := scanTime m.data

/-- A `HH:MM - HH:MM` range. -/
structure HmRange where
  start : Hm
  stop : Hm
deriving DecidableEq, Repr

/-- `(\d{1,2}):(\d{2})` anchored here (no lookahead, two-digit hour first);
returns the pair and the rest of the input. -/
def hmAt (l : List Char) : Option (Hm × List Char) :=
  match l with
  | a :: b :: ':' :: c :: d :: rest =>
    if isDigitChar a && isDigitChar b && isDigitChar c && isDigitChar d then
      some (⟨10 * digitVal a + digitVal b, 10 * digitVal c + digitVal d⟩, rest)
    else none
  | a :: ':' :: c :: d :: rest =>
    if isDigitChar a && isDigitChar c && isDigitChar d then
      some (⟨digitVal a, 10 * digitVal c + digitVal d⟩, rest)
    else none
  | _ => none

/-- `/(\d{1,2}):(\d{2})\s*-\s*(\d{1,2}):(\d{2})/` anchored at this position. -/
def rangeAt (l : List Char) : Option HmRange :=
  match hmAt l with
  | none => none
  | some (t1, rest) =>
    match rest.dropWhile isSpaceChar with
    | '-' :: rest' =>
      match hmAt (rest'.dropWhile isSpaceChar) with
      | some (t2, _) => some ⟨t1, t2⟩
      | none => none
    | _ => none

def scanRange : List Char → Option HmRange
  | [] => none
  | x :: xs =>
    match rangeAt (x :: xs) with
    | some r => some r
    | none => scanRange xs

/-- `extractTimeRange`, the leftmost match of the range pattern. -/
def extractTimeRange (m : String) : Option HmRange := scanRange m.data

/-- `(\d{3,4})\s*g\b` anchored here (four digits attempted before three). -/
def weightAt (l : List Char) : Option Nat :=
  let tail4 : List Char → Option Nat := fun rest =>
    match rest.dropWhile isSpaceChar with
    | 'g' :: rest' =>
      match rest' with
      | [] => some 0
      | e :: _ => if isWordChar e then none else some 0
    | _ => none
  match l with
  | a :: b :: c :: d :: rest =>
    if isDigitChar a && isDigitChar b && isDigitChar c && isDigitChar d then
      match tail4 rest with
      | some _ => some (1000 * digitVal a + 100 * digitVal b + 10 * digitVal c + digitVal d)
      | none =>
        match tail4 (d :: rest) with
        | some _ => some (100 * digitVal a + 10 * digitVal b + digitVal c)
        | none => none
    else if isDigitChar a && isDigitChar b && isDigitChar c then
      match tail4 (d :: rest) with
      | some _ => some (100 * digitVal a + 10 * digitVal b + digitVal c)
      | none => none
    else none
  | a :: b :: c :: rest =>
    if isDigitChar a && isDigitChar b && isDigitChar c then
      match tail4 rest with
      | some _ => some (100 * digitVal a + 10 * digitVal b + digitVal c)
      | none => none
    else none
  | _ => none

def scanWeight : List Char → Option Nat
  | [] => none
  | x :: xs =>
    match weightAt (x :: xs) with
    | some w => some w
    | none => scanWeight xs

/-- `extractWeight`: the keyword test runs on the lowercased message, the
gram capture on the original text. -/
def extractWeight (m : String) : Option Nat :=
  if reTest weightKeyRe (lowerOf m) then scanWeight m.data else none

/-! ### Events, parser state, log records -/

/-- Union of the event-type strings used across the repository: the
`types.ts` union plus the extra strings emitted by the regex extractor in
`src/fetch-date.ts` (`END_FEED`, `WET_DIAPER_CHANGE`, `DIRTY_DIAPER_CHANGE`). -/
inductive EventType where
  | START_FEED | STOP_FEED | END_FEED
  | START_SLEEP | STOP_SLEEP
  | DIAPER_CHANGE | WET_DIAPER_CHANGE | DIRTY_DIAPER_CHANGE
  | COMMENT | WEIGHT
deriving DecidableEq, Repr

inductive DiaperChangeType where
  | WET | DIRTY | WET_AND_DIRTY
deriving DecidableEq, Repr

/-- `ParsedEvent` (`types.ts`); the ISO timestamp string is modelled by its
minute value. -/
structure ParsedEvent where
  timestamp : Int
  type : EventType
  rawMessage : String
  weight : Option Nat := none
  diaperChangeType : Option DiaperChangeType := none
deriving DecidableEq, Repr

/-- `RawLogEntry` (`types.ts`). -/
structure RawLogEntry where
  date : Int
  author : String
  message : String
deriving DecidableEq, Repr

/-- `ParserState` (`types.ts`). -/
structure ParserState where
  lastFeedWasStop : Bool
  lastSleepWasStop : Bool
deriving DecidableEq, Repr

/-- Event constructor without optional payloads. -/
def mkEv (ts : Int) (ty : EventType) (msg : String) : ParsedEvent :=
  { timestamp := ts, type := ty, rawMessage := msg }

/-! ### `parseLogLine` and `combineInt` -/

/-- `parseLogLine`: the anchored header regex
`^(\d{2})\/(\d{2})\/(\d{4}),\s+(\d{1,2}):(\d{2})\s+-\s+([^:]+):\s*(.*)$`,
hand-transcribed (the author group is the run of non-colon characters up to
the first colon after the dash). -/
def parseLogLine (line : String) : Option RawLogEntry :=
  match line.data with
  | d1 :: d2 :: '/' :: m1 :: m2 :: '/' :: y1 :: y2 :: y3 :: y4 :: ',' :: rest =>
    if isDigitChar d1 && isDigitChar d2 && isDigitChar m1 && isDigitChar m2 &&
        isDigitChar y1 && isDigitChar y2 && isDigitChar y3 && isDigitChar y4 then
      let sp1 := rest.dropWhile isSpaceChar
      if sp1.length == rest.length then none    -- `\s+` needs at least one space
      else
        -- hour `\d{1,2}` followed by `:` and two minute digits
        let afterTime : Option (Nat × Nat × List Char) :=
          match sp1 with
          | a :: b :: ':' :: mi1 :: mi2 :: r =>
            if isDigitChar a && isDigitChar b && isDigitChar mi1 && isDigitChar mi2 then
              some (10 * digitVal a + digitVal b, 10 * digitVal mi1 + digitVal mi2, r)
            else if isDigitChar a && b == ':' then none
            else none
          | a :: ':' :: mi1 :: mi2 :: r =>
            if isDigitChar a && isDigitChar mi1 && isDigitChar mi2 then
              some (digitVal a, 10 * digitVal mi1 + digitVal mi2, r)
            else none
          | _ => none
        match afterTime with
        | none => none
        | some (hh, mi, r) =>
          let sp2 := r.dropWhile isSpaceChar
          if sp2.length == r.length then none   -- `\s+` before the dash
          else
            match sp2 with
            | '-' :: r2 =>
              let sp3 := r2.dropWhile isSpaceChar
              if sp3.length == r2.length then none  -- `\s+` after the dash
              else
                let author := sp3.takeWhile (fun c => c != ':')
                let r3 := sp3.dropWhile (fun c => c != ':')
                if author.isEmpty then none     -- `[^:]+` needs one character
                else
                  match r3 with
                  | ':' :: r4 =>
                    let msg := r4.dropWhile isSpaceChar
                    let day := 10 * digitVal d1 + digitVal d2
                    let month := 10 * digitVal m1 + digitVal m2
                    let year := 1000 * digitVal y1 + 100 * digitVal y2 + 10 * digitVal y3 + digitVal y4
                    some { date := jsDateValue year (month - 1) day hh mi,
                           author := jsTrim (String.mk author),
                           message := jsTrim (String.mk msg) }
                  | _ => none
            | _ => none
    else none
  | _ => none

/-- `combineInt`: keep the record's calendar day, overwrite the time of
day (`result.setHours(h, m, 0, 0)`; out-of-range fields roll over exactly as
in JavaScript). -/
def combineInt (logDate : Int) (t : Hm) : Int :=
  dayOf logDate * 1440 + (t.hour : Int) * 60 + (t.minute : Int)

/-- The `createTimestamp` helper of `parseEntry`. -/
def createTimestamp (entry : RawLogEntry) : Option Hm → Int
  | some t => combineInt entry.date t
  | none => entry.date

/-! ### `parseEntry` -/

/-- `getDiaperType`. -/
def getDiaperType (m : String) : EventType :=
  if hasWetToken m && hasDirtyToken m then .DIAPER_CHANGE
  else if hasDirtyToken m then .DIRTY_DIAPER_CHANGE
  else if hasWetToken m then .WET_DIAPER_CHANGE
  else .DIAPER_CHANGE

/-- The `WEIGHT` event pushed at the top of `parseEntry`, if any. -/
def weightEvents (msg : String) (ts : Int) : List ParsedEvent :=
  match extractWeight msg with
  | some w => [{ timestamp := ts, type := .WEIGHT, rawMessage := msg, weight := some w }]
  | none => []

/-- The diaper-change events pushed by `parseEntry`: two events when both a
wet and a dirty token are present, otherwise one event of `getDiaperType`. -/
def diaperEvents (msg : String) (ts : Int) : List ParsedEvent :=
  if isDiaperChange msg then
    if hasWetToken msg && hasDirtyToken msg then
      [mkEv ts .WET_DIAPER_CHANGE msg, mkEv ts .DIRTY_DIAPER_CHANGE msg]
    else
      [mkEv ts (getDiaperType msg) msg]
  else []

/-- The feed block of `parseEntry` (guarded by
`isFeedMessage && !isDiaperChange` at the call site). -/
def feedSection (msg : String) (ts : Int) (evs : List ParsedEvent)
    (st : ParserState) : List ParsedEvent × ParserState :=
  let isStart := isStartIndicator msg
  let isStop := isStopIndicator msg
  let lower := lowerOf msg
  if isStart && isStop then
    let stopFirst :=
      indexOfSub lower "stop".data < indexOfSub lower "start".data ||
      indexOfSub lower "gata".data < indexOfSub lower "start".data ||
      indexOfSub lower "terminat".data < indexOfSub lower "start".data
    let p1 :=
      if stopFirst || (!isStart && isStop) then
        (evs ++ [mkEv ts .END_FEED msg], { st with lastFeedWasStop := true })
      else (evs, st)
    if isStart then
      (p1.1 ++ [mkEv ts .START_FEED msg], { p1.2 with lastFeedWasStop := false })
    else p1
  else if isStop then
    (evs ++ [mkEv ts .END_FEED msg], { st with lastFeedWasStop := true })
  else if isStart then
    (evs ++ [mkEv ts .START_FEED msg], { st with lastFeedWasStop := false })
  else if st.lastFeedWasStop then
    (evs ++ [mkEv ts .START_FEED msg], { st with lastFeedWasStop := false })
  else
    (evs ++ [mkEv ts .END_FEED msg], { st with lastFeedWasStop := true })

/-- The sleep block of `parseEntry` (guarded by
`isSleepMessage && !isFeedMessage` at the call site). -/
def sleepSection (msg : String) (ts : Int) (evs : List ParsedEvent)
    (st : ParserState) : List ParsedEvent × ParserState :=
  let isStart := isStartIndicator msg
  let isStop := isStopIndicator msg
  let lower := lowerOf msg
  let isTrezit := containsSub "trezit".data lower
  if isStart && isStop && !isTrezit then
    let startIdx := indexOfSub lower "start".data
    let stopFirst :=
      if startIdx == -1 then true else indexOfSub lower "stop".data < startIdx
    let p1 :=
      if stopFirst then
        (evs ++ [mkEv ts .STOP_SLEEP msg], { st with lastSleepWasStop := true })
      else (evs, st)
    if isStart && !isTrezit then
      (p1.1 ++ [mkEv ts .START_SLEEP msg], { p1.2 with lastSleepWasStop := false })
    else p1
  else if isStop || isTrezit then
    (evs ++ [mkEv ts .STOP_SLEEP msg], { st with lastSleepWasStop := true })
  else if isStart then
    (evs ++ [mkEv ts .START_SLEEP msg], { st with lastSleepWasStop := false })
  else if reTest dormitRe lower then
    -- "dormit pana la X" indicates sleep that ended
    (evs ++ [mkEv ts .STOP_SLEEP msg], { st with lastSleepWasStop := true })
  else if reTest somnDigitRe lower then
    -- standalone "Somn HH:MM" is a start
    (evs ++ [mkEv ts .START_SLEEP msg], { st with lastSleepWasStop := false })
  else (evs, st)

/-- Membership test used by the combined feed-and-sleep block (`hasEvent`). -/
def hasEvt (evs : List ParsedEvent) (ty : EventType) : Bool :=
  evs.any (fun e => e.type == ty)

/-- The combined "stop papa si start somn" block of `parseEntry` (guarded by
`isFeedMessage && isSleepMessage` at the call site). -/
def combinedSection (msg : String) (ts : Int) (evs : List ParsedEvent)
    (st : ParserState) : List ParsedEvent × ParserState :=
  let lower := lowerOf msg
  let feedStop := reTest feedStopRe lower
  let feedStart := reTest feedStartRe lower
  let sleepStop := reTest sleepStopRe lower
  let sleepStart := reTest sleepStartRe lower || reTest somnDigitRe lower
  let p1 :=
    if feedStop && !hasEvt evs .END_FEED then
      (evs ++ [mkEv ts .END_FEED msg], { st with lastFeedWasStop := true })
    else (evs, st)
  let p2 :=
    if feedStart && !hasEvt p1.1 .START_FEED then
      (p1.1 ++ [mkEv ts .START_FEED msg], { p1.2 with lastFeedWasStop := false })
    else p1
  let p3 :=
    if sleepStop && !hasEvt p2.1 .STOP_SLEEP then
      (p2.1 ++ [mkEv ts .STOP_SLEEP msg], { p2.2 with lastSleepWasStop := true })
    else p2
  if sleepStart && !hasEvt p3.1 .START_SLEEP then
    (p3.1 ++ [mkEv ts .START_SLEEP msg], { p3.2 with lastSleepWasStop := false })
  else p3

/-- The part of `parseEntry` after the explicit time-range branch (the feed,
sleep and combined blocks, run in source order on the events accumulated so
far). -/
def parseEntryRest (msg : String) (ts : Int) (evs : List ParsedEvent)
    (st : ParserState) : List ParsedEvent × ParserState :=
  let p1 :=
    if isFeedMessage msg && !isDiaperChange msg then feedSection msg ts evs st
    else (evs, st)
  let p2 :=
    if isSleepMessage msg && !isFeedMessage msg then sleepSection msg ts p1.1 p1.2
    else p1
  if isFeedMessage msg && isSleepMessage msg then combinedSection msg ts p2.1 p2.2
  else p2

/-- `parseEntry`: maps one log record to its events, threading the mutable
`ParserState` explicitly. -/
def parseEntry (entry : RawLogEntry) (state : ParserState) :
    List ParsedEvent × ParserState :=
  let msg := entry.message
  if isDeletedMessage msg then ([], state)
  else
    let extractedTime := extractTimeFromMessage msg
    let ts := createTimestamp entry extractedTime
    let evs := weightEvents msg ts ++ diaperEvents msg ts
    match extractTimeRange msg with
    | some r =>
      if isFeedMessage msg then
        (evs ++ [mkEv (combineInt entry.date r.start) .START_FEED msg,
                 mkEv (combineInt entry.date r.stop) .END_FEED msg],
         { state with lastFeedWasStop := true })
      else if isSleepMessage msg then
        (evs ++ [mkEv (combineInt entry.date r.start) .START_SLEEP msg,
                 mkEv (combineInt entry.date r.stop) .STOP_SLEEP msg],
         { state with lastSleepWasStop := true })
      else parseEntryRest msg ts evs state
    | none => parseEntryRest msg ts evs state

/-! ### `parseLogFile` and the line tokenizer -/

/-- Fold `parseEntry` over a record sequence, threading the parser state. -/
def processEntries : List RawLogEntry → ParserState → List ParsedEvent
  | [], _ => []
  | e :: es, st =>
    let p := parseEntry e st
    p.1 ++ processEntries es p.2

/-- `content.split('\n')`. -/
def splitNl (l : List Char) : List (List Char) :=
  l.foldr
    (fun c acc =>
      match acc with
      | h :: t => if c == '\n' then [] :: h :: t else (c :: h) :: t
      | [] => [[c]])
    [[]]

/-- The main loop of `parseLogFile`: skip blank lines, open a new record on a
header line (flushing the previous record through `parseEntry`), append
continuation lines to the open record with a separating space, and drop
non-header lines seen before any record is open. -/
def plfLoop : List String → Option RawLogEntry → ParserState → List ParsedEvent
  | [], cur, st =>
    (match cur with
     | some e => (parseEntry e st).1
     | none => [])
  | l :: ls, cur, st =>
    let t := jsTrim l
    if t = "" then plfLoop ls cur st
    else
      match parseLogLine t with
      | some parsed =>
        match cur with
        | some e =>
          let p := parseEntry e st
          p.1 ++ plfLoop ls (some parsed) p.2
        | none => plfLoop ls (some parsed) st
      | none =>
        match cur with
        | some e =>
          plfLoop ls (some { e with message := e.message ++ " " ++ t }) st
        | none => plfLoop ls cur st

/-- Timestamp order on events (the comparator of the final sort). -/
def tsLe (a b : ParsedEvent) : Prop := a.timestamp ≤ b.timestamp

instance : DecidableRel tsLe := fun a b => inferInstanceAs (Decidable (a.timestamp ≤ b.timestamp))

instance : IsTotal ParsedEvent tsLe := ⟨fun a b => Int.le_total a.timestamp b.timestamp⟩

instance : IsTrans ParsedEvent tsLe := ⟨fun _ _ _ h h' => le_trans h h'⟩

/-- `parseLogFile`: tokenize, extract with threaded state, sort by
timestamp. -/
def parseLogFile (content : String) : List ParsedEvent :=
  List.insertionSort tsLe
    (plfLoop ((splitNl content.data).map String.mk) none
      { lastFeedWasStop := true, lastSleepWasStop := true })

/-- The same loop, collecting the finalized records instead of their events
(used to state the tokenizer claims; related to `plfLoop` by
`plfLoop_eq_processEntries`). -/
def tokLoop : List String → Option RawLogEntry → List RawLogEntry
  | [], cur =>
    (match cur with
     | some e => [e]
     | none => [])
  | l :: ls, cur =>
    let t := jsTrim l
    if t = "" then tokLoop ls cur
    else
      match parseLogLine t with
      | some parsed =>
        match cur with
        | some e => e :: tokLoop ls (some parsed)
        | none => tokLoop ls (some parsed)
      | none =>
        match cur with
        | some e => tokLoop ls (some { e with message := e.message ++ " " ++ t })
        | none => tokLoop ls cur

/-- The record sequence produced by the line tokenizer of `parseLogFile`. -/
def tokenizeLogFile (content : String) : List RawLogEntry :=
  tokLoop ((splitNl content.data).map String.mk) none

/-! ### Session matching (`src/aggregator.ts`, also in `part_001`) -/

/-- A start/stop pair; `endEvt` is the `end` field of the source
(`null` = unterminated session). -/
structure SessionMatch where
  start : ParsedEvent
  endEvt : Option ParsedEvent
deriving DecidableEq, Repr

/-- The loop of `matchSessions` with the mutable `currentStart` made
explicit. -/
def matchSessionsAux (startType endType : EventType) :
    Option ParsedEvent → List ParsedEvent → List SessionMatch
  | cur, [] =>
    (match cur with
     | some c => [{ start := c, endEvt := none }]
     | none => [])
  | cur, ev :: rest =>
    if ev.type = startType then
      match cur with
      | some c => { start := c, endEvt := none } :: matchSessionsAux startType endType (some ev) rest
      | none => matchSessionsAux startType endType (some ev) rest
    else if ev.type = endType then
      match cur with
      | some c => { start := c, endEvt := some ev } :: matchSessionsAux startType endType none rest
      | none => matchSessionsAux startType endType none rest
    else matchSessionsAux startType endType cur rest

/-- `matchSessions`. -/
def matchSessions (events : List ParsedEvent) (startType endType : EventType) :
    List SessionMatch :=
  matchSessionsAux startType endType none events

/-! ### Per-date sleep classification (`aggregateByDay`, `part_001`) -/

/-- Night interval bounds (`NIGHT_START_HOUR` / `NIGHT_END_HOUR` defaults of
`part_001`). -/
def NIGHT_START_HOUR : Int := 21

def NIGHT_END_HOUR : Int := 8

/-- `isNightTime`. -/
def isNightTime (hour : Int) : Bool :=
  hour ≥ NIGHT_START_HOUR || hour < NIGHT_END_HOUR

/-- `NapSession`: `startTime` / `endTime` are the `HH:MM` strings of the
source, modelled as minute-of-day values (`formatTime`). -/
structure Nap where
  startTime : Int
  endTime : Int
  durationMinutes : Int
  isNightSleep : Bool
  rawMessages : List String
deriving DecidableEq, Repr

/-- Placeholder used by the total `List.getD` lookups (never reached on the
in-range indices the development manipulates). -/
def dNap : Nap := { startTime := 0, endTime := 0, durationMinutes := 0,
                    isNightSleep := false, rawMessages := [] }

/-- The mutable per-date sleep state of `aggregateByDay`: the `naps` array of
the summary plus the `daySleepSessions` / `morningSleepSessions` /
`eveningSleepSessions` lists, which are modelled as lists of indices into
`naps` because the source lists alias the `naps` entries (reclassification
mutates a shared `NapSession` object). -/
structure ClassState where
  naps : List Nap
  dayIdx : List Nat
  mornIdx : List Nat
  eveIdx : List Nat
  totalSleepTime : Int
  napCount : Nat
deriving DecidableEq, Repr

def emptyClassState : ClassState :=
  { naps := [], dayIdx := [], mornIdx := [], eveIdx := [], totalSleepTime := 0, napCount := 0 }

/-- The body of the sleep-session loop of `aggregateByDay`: filter to the
date's closed sessions with duration in `(0, 720)`, build the `NapSession`,
flag it as night sleep iff its start hour is in the night interval, and file
it as a morning session (start strictly before `nightEnd` of the date), an
evening session (start strictly after `nightStart`: dayjs `isAfter`), or a
day session otherwise. -/
def classifyStep (dateDay : Int) (st : ClassState) (s : SessionMatch) : ClassState :=
  match s.endEvt with
  | none => st
  | some e =>
    let start := s.start.timestamp
    if dayOf start ≠ dateDay then st
    else
      let dur := e.timestamp - start
      if dur ≤ 0 ∨ 720 ≤ dur then st
      else
        let isN := isNightTime (hourOf start)
        let nap : Nap := { startTime := minOfDay start, endTime := minOfDay e.timestamp,
                           durationMinutes := dur, isNightSleep := isN,
                           rawMessages := [s.start.rawMessage, e.rawMessage] }
        let i := st.naps.length
        let base := { st with naps := st.naps ++ [nap],
                              totalSleepTime := st.totalSleepTime + dur,
                              napCount := st.napCount + 1 }
        if isN && decide (start < dateDay * 1440 + NIGHT_END_HOUR * 60) then
          { base with mornIdx := st.mornIdx ++ [i] }
        else if isN && decide (start > dateDay * 1440 + NIGHT_START_HOUR * 60) then
          { base with eveIdx := st.eveIdx ++ [i] }
        else
          { base with dayIdx := st.dayIdx ++ [i] }

/-- The classification pass over all sleep sessions for one date. -/
def classifySleep (dateDay : Int) (sessions : List SessionMatch) : ClassState :=
  sessions.foldl (classifyStep dateDay) emptyClassState

/-- The morning-boundary reclassification: with at least two morning
sessions, if the last one started more than half its own duration after the
previous one ended and lasts at least 30 minutes, clear its night flag and
move it to the day list. -/
def reclassifyMorning (st : ClassState) : ClassState :=
  if st.mornIdx.length ≥ 2 then
    let iLast := st.mornIdx.getLastD 0
    let iPrev := (st.mornIdx.dropLast).getLastD 0
    let last := st.naps.getD iLast dNap
    let prev := st.naps.getD iPrev dNap
    let timeSincePreviousNap := last.startTime - prev.endTime
    if 2 * timeSincePreviousNap > last.durationMinutes ∧ last.durationMinutes ≥ 30 then
      { st with naps := st.naps.set iLast { last with isNightSleep := false },
                dayIdx := st.dayIdx ++ [iLast],
                mornIdx := st.mornIdx.dropLast }
    else st
  else st

/-- The evening-boundary reclassification: with at least two evening
sessions, if the gap from the first one's end to the second one's start
exceeds half the first one's duration, clear its night flag and move it to
the day list. -/
def reclassifyEvening (st : ClassState) : ClassState :=
  match st.eveIdx with
  | i0 :: i1 :: _ =>
    let first := st.naps.getD i0 dNap
    let next := st.naps.getD i1 dNap
    let timeUntilNextNap := next.startTime - first.endTime
    if 2 * timeUntilNextNap > first.durationMinutes then
      { st with naps := st.naps.set i0 { first with isNightSleep := false },
                dayIdx := st.dayIdx ++ [i0],
                eveIdx := st.eveIdx.tail }
    else st
  | _ => st

/-- Sum of `durationMinutes` over a list of nap indices. -/
def sumIdx (naps : List Nap) (idx : List Nat) : Int :=
  (idx.map (fun i => (naps.getD i dNap).durationMinutes)).sum

/-- The complete per-date sleep processing: classify, then both
reclassifications (in source order). -/
def processSleepDate (dateDay : Int) (sessions : List SessionMatch) : ClassState :=
  reclassifyEvening (reclassifyMorning (classifySleep dateDay sessions))

/-- `totalDaySleepTime` of the date. -/
def totalDaySleep (dateDay : Int) (sessions : List SessionMatch) : Int :=
  let c := processSleepDate dateDay sessions
  sumIdx c.naps c.dayIdx

/-- `totalNightSleepTime` of the date (`nightSleepSessions` is the
concatenation of the final morning and evening lists). -/
def totalNightSleep (dateDay : Int) (sessions : List SessionMatch) : Int :=
  let c := processSleepDate dateDay sessions
  sumIdx c.naps (c.mornIdx ++ c.eveIdx)

/-- The durations of the date's closed sleep sessions that pass the `(0,720)`
validity filter (the sessions `aggregateByDay` does not discard). -/
def validSleepDurations (dateDay : Int) (sessions : List SessionMatch) : List Int :=
  sessions.filterMap (fun s =>
    match s.endEvt with
    | none => none
    | some e =>
      if dayOf s.start.timestamp = dateDay then
        let dur := e.timestamp - s.start.timestamp
        if dur ≤ 0 ∨ 720 ≤ dur then none else some dur
      else none)

/-! ### The remaining per-date rollups and `aggregateByDay` -/

/-- `countNightWakeUps`: `STOP_SLEEP` events of the date whose hour is in the
night interval. -/
def countNightWakeUps (events : List ParsedEvent) (dateDay : Int) : Nat :=
  (events.filter (fun e =>
    e.type == .STOP_SLEEP && dayOf e.timestamp == dateDay &&
      isNightTime (hourOf e.timestamp))).length

/-- `FeedingSession` (times as minute-of-day values). -/
structure FeedingSessionR where
  startTime : Int
  endTime : Int
  durationMinutes : Int
  rawMessages : List String
deriving DecidableEq, Repr

/-- The feeding rollup of `aggregateByDay`: closed sessions starting on the
date with duration in `(0, 180)`. -/
def feedingsOn (dateDay : Int) (sessions : List SessionMatch) : List FeedingSessionR :=
  sessions.filterMap (fun s =>
    match s.endEvt with
    | none => none
    | some e =>
      if dayOf s.start.timestamp = dateDay then
        let dur := e.timestamp - s.start.timestamp
        if 0 < dur ∧ dur < 180 then
          some { startTime := minOfDay s.start.timestamp, endTime := minOfDay e.timestamp,
                 durationMinutes := dur,
                 rawMessages := [s.start.rawMessage, e.rawMessage] }
        else none
      else none)

/-- `DiaperChange` entries of the date. -/
structure DiaperChangeR where
  time : Int
  kind : Option DiaperChangeType
  rawMessage : String
deriving DecidableEq, Repr

/-- The per-date summary (`DaySummary`), covering the fields the claims
refer to; the four derived `average*` fields of the source are not
reproduced because no claim mentions them. -/
structure DaySummaryR where
  date : Int
  totalSleepTime : Int
  totalFeedingTime : Int
  totalDaySleepTime : Int
  totalNightSleepTime : Int
  napSessions : Nat
  feedingSessions : Nat
  totalNightWakeUps : Nat
  naps : List Nap
  feedings : List FeedingSessionR
  diaperChanges : List DiaperChangeR
  wetDiaperChanges : Nat
  dirtyDiaperChanges : Nat
  mixedDiaperChanges : Nat
  totalDiaperChanges : Nat
  weight : Option Nat
deriving DecidableEq, Repr

/-- Events of one calendar date, in sorted order (`groupEventsByDate`). -/
def eventsOn (dateDay : Int) (events : List ParsedEvent) : List ParsedEvent :=
  events.filter (fun e => dayOf e.timestamp == dateDay)

/-- Diaper tally: `WET` / `DIRTY` / `WET_AND_DIRTY` counters, with a missing
kind counted as wet (the `else` branch of the source). -/
def diaperCounts (dayEvents : List ParsedEvent) : Nat × Nat × Nat :=
  dayEvents.foldl
    (fun acc e =>
      if e.type == .DIAPER_CHANGE then
        match e.diaperChangeType with
        | some .WET => (acc.1 + 1, acc.2.1, acc.2.2)
        | some .DIRTY => (acc.1, acc.2.1 + 1, acc.2.2)
        | some .WET_AND_DIRTY => (acc.1, acc.2.1, acc.2.2 + 1)
        | none => (acc.1 + 1, acc.2.1, acc.2.2)
      else acc)
    (0, 0, 0)

/-- Last same-day `WEIGHT` event with a truthy gram value. -/
def lastWeight (dayEvents : List ParsedEvent) : Option Nat :=
  dayEvents.foldl
    (fun acc e =>
      if e.type == .WEIGHT then
        match e.weight with
        | some w => if w ≠ 0 then some w else acc
        | none => acc
      else acc)
    none

/-- One `DaySummary` of `aggregateByDay`. -/
def mkDaySummary (sortedEvents : List ParsedEvent)
    (feedingSessions sleepSessions : List SessionMatch) (dateDay : Int) : DaySummaryR :=
  let dayEvents := eventsOn dateDay sortedEvents
  let feedings := feedingsOn dateDay feedingSessions
  let c := processSleepDate dateDay sleepSessions
  let dc := diaperCounts dayEvents
  { date := dateDay
    totalSleepTime := c.totalSleepTime
    totalFeedingTime := (feedings.map (·.durationMinutes)).sum
    totalDaySleepTime := sumIdx c.naps c.dayIdx
    totalNightSleepTime := sumIdx c.naps (c.mornIdx ++ c.eveIdx)
    napSessions := c.napCount
    feedingSessions := feedings.length
    totalNightWakeUps := countNightWakeUps sortedEvents dateDay
    naps := c.naps
    feedings := feedings
    diaperChanges := dayEvents.filterMap (fun e =>
      if e.type == .DIAPER_CHANGE then
        some { time := minOfDay e.timestamp, kind := e.diaperChangeType, rawMessage := e.rawMessage }
      else none)
    wetDiaperChanges := dc.1
    dirtyDiaperChanges := dc.2.1
    mixedDiaperChanges := dc.2.2
    totalDiaperChanges := (dayEvents.filter (fun e => e.type == .DIAPER_CHANGE)).length
    weight := lastWeight dayEvents }

/-- The set of dates touched by an event or a session endpoint, deduplicated
and sorted ascending (`Array.from(allDates).sort()`). -/
def allDates (events : List ParsedEvent) (fs ss : List SessionMatch) : List Int :=
  let ds := events.map (fun e => dayOf e.timestamp) ++
    (fs ++ ss).foldr
      (fun s acc =>
        dayOf s.start.timestamp ::
          (match s.endEvt with
           | some e => dayOf e.timestamp :: acc
           | none => acc))
      []
  List.insertionSort (· ≤ ·) ds.dedup

/-- Date order on summaries (the final `localeCompare` sort). -/
def dateLe (a b : DaySummaryR) : Prop := a.date ≤ b.date

instance : DecidableRel dateLe := fun a b => inferInstanceAs (Decidable (a.date ≤ b.date))

instance : IsTotal DaySummaryR dateLe := ⟨fun a b => Int.le_total a.date b.date⟩

instance : IsTrans DaySummaryR dateLe := ⟨fun _ _ _ h h' => le_trans h h'⟩

/-- `aggregateByDay` (`part_001`): sort a copy of the events, match the two
session categories, and build one summary per touched date, ascending. -/
def aggregateByDay (events : List ParsedEvent) : List DaySummaryR :=
  let sortedEvents := List.insertionSort tsLe events
  let feedingSessions := matchSessions sortedEvents .START_FEED .STOP_FEED
  let sleepSessions := matchSessions sortedEvents .START_SLEEP .STOP_SLEEP
  let summaries :=
    (allDates sortedEvents feedingSessions sleepSessions).map
      (mkDaySummary sortedEvents feedingSessions sleepSessions)
  List.insertionSort dateLe summaries

/-! ### Auxiliary definitions used by the statements below -/

/-- The diaper-typed events of an event list. -/
def diaperFilter (evs : List ParsedEvent) : List ParsedEvent :=
  evs.filter (fun e =>
    e.type == .DIAPER_CHANGE || e.type == .WET_DIAPER_CHANGE || e.type == .DIRTY_DIAPER_CHANGE)

/-- All classification indices of a per-date sleep state, in one list. -/
def idxConcat (st : ClassState) : List Nat := st.dayIdx ++ st.mornIdx ++ st.eveIdx

/-- Structural invariant of the per-date sleep state: the classification
lists index into `naps` without repetition, and their duration sums add up to
the accumulated total. -/
def ClassInv (st : ClassState) : Prop :=
  (∀ i ∈ idxConcat st, i < st.naps.length) ∧
  (idxConcat st).Nodup ∧
  sumIdx st.naps st.dayIdx + sumIdx st.naps st.mornIdx + sumIdx st.naps st.eveIdx =
    st.totalSleepTime

/-- Default summary record (for total `getD` lookups in concrete instances). -/
def dSummary : DaySummaryR :=
  { date := 0, totalSleepTime := 0, totalFeedingTime := 0, totalDaySleepTime := 0,
    totalNightSleepTime := 0, napSessions := 0, feedingSessions := 0, totalNightWakeUps := 0,
    naps := [], feedings := [], diaperChanges := [], wetDiaperChanges := 0,
    dirtyDiaperChanges := 0, mixedDiaperChanges := 0, totalDiaperChanges := 0, weight := none }

/-- Concrete event list used to instantiate the aggregation theorems: one
valid night sleep session (01:00–02:00) and one day session (10:00–10:30) on
day 0. -/
def sampleEvents : List ParsedEvent :=
  [mkEv 60 .START_SLEEP "Start somn 1:00", mkEv 120 .STOP_SLEEP "Trezit 2:00",
   mkEv 600 .START_SLEEP "somn 10:00", mkEv 630 .STOP_SLEEP "stop somn 10:30"]

/-- Concrete per-date session list with two morning naps (01:00–02:00 and
05:00–06:00): the second one's pre-gap (180 min) exceeds half its duration
(60 min) and its duration is ≥ 30 min, so it is reclassified as day sleep. -/
def sampleMorningSessions : List SessionMatch :=
  [{ start := mkEv 60 .START_SLEEP "Start somn 1:00",
     endEvt := some (mkEv 120 .STOP_SLEEP "Trezit 2:00") },
   { start := mkEv 300 .START_SLEEP "somn 5:00",
     endEvt := some (mkEv 360 .STOP_SLEEP "Trezit 6:00") }]

/-- The morning-session test of the classification (night-flagged, start
strictly before the `nightEnd` hour of the date). -/
def isMorningNap (nap : Nap) : Bool :=
  nap.isNightSleep && decide (nap.startTime < NIGHT_END_HOUR * 60)

/-- The evening-session test (night-flagged, start strictly after the
`nightStart` hour: dayjs `isAfter`). -/
def isEveningNap (nap : Nap) : Bool :=
  nap.isNightSleep && decide (NIGHT_START_HOUR * 60 < nap.startTime)

/-- Sessions in neither the morning nor the evening list go to the day list
(this includes night-flagged sessions starting exactly at `nightStart`). -/
def isDayNap (nap : Nap) : Bool := !isMorningNap nap && !isEveningNap nap

/-- Full characterization of the classification pass: every nap's night flag
holds exactly when its start hour is in the night interval, and the three
index lists select exactly the morning / evening / day naps. -/
def ClassFiltered (st : ClassState) : Prop :=
  (∀ nap ∈ st.naps, nap.isNightSleep = isNightTime (nap.startTime / 60)) ∧
  st.mornIdx = (List.range st.naps.length).filter
    (fun i => isMorningNap (st.naps.getD i dNap)) ∧
  st.eveIdx = (List.range st.naps.length).filter
    (fun i => isEveningNap (st.naps.getD i dNap)) ∧
  st.dayIdx = (List.range st.naps.length).filter
    (fun i => isDayNap (st.naps.getD i dNap))

/-! ### Theorems -/

set_option maxRecDepth 20000

/-- C10: the event list returned by `parseLogFile` is sorted in
non-decreasing timestamp order for every input transcript. -/
theorem parseLogFile_sorted (content : String) :
    List.Sorted tsLe (parseLogFile content) :=
  List.sorted_insertionSort tsLe _

/-- C5: characterization of `matchSessions` for any two distinct event types:
the wrapper runs the loop with no open start; a STOP with no open start is
dropped; a STOP with an open start closes it; a START with an open start
flushes the open one with a null end; an open start at end of stream is
flushed with a null end. -/
theorem matchSessions_characterization (s e : EventType) (hne : s ≠ e) :
    (∀ evs, matchSessions evs s e = matchSessionsAux s e none evs) ∧
    (∀ (ev : ParsedEvent) (rest : List ParsedEvent), ev.type = e →
      matchSessionsAux s e none (ev :: rest) = matchSessionsAux s e none rest) ∧
    (∀ (c ev : ParsedEvent) (rest : List ParsedEvent), ev.type = e →
      matchSessionsAux s e (some c) (ev :: rest) =
        { start := c, endEvt := some ev } :: matchSessionsAux s e none rest) ∧
    (∀ (c ev : ParsedEvent) (rest : List ParsedEvent), ev.type = s →
      matchSessionsAux s e (some c) (ev :: rest) =
        { start := c, endEvt := none } :: matchSessionsAux s e (some ev) rest) ∧
    (∀ c : ParsedEvent, matchSessionsAux s e (some c) [] = [{ start := c, endEvt := none }]) := by
  refine ⟨fun _ => rfl, ?_, ?_, ?_, fun _ => rfl⟩
  · intro ev rest h
    simp [matchSessionsAux, h, hne.symm]
  · intro c ev rest h
    simp [matchSessionsAux, h, hne.symm]
  · intro c ev rest h
    simp [matchSessionsAux, h]

/-- Witness for C5 at the feed category with concrete events. -/
theorem matchSessions_characterization_witness :
    matchSessionsAux EventType.START_FEED EventType.STOP_FEED none
        (mkEv 0 .STOP_FEED "orphan" :: []) =
      matchSessionsAux EventType.START_FEED EventType.STOP_FEED none [] ∧
    matchSessionsAux EventType.START_FEED EventType.STOP_FEED (some (mkEv 0 .START_FEED "a"))
        (mkEv 5 .STOP_FEED "b" :: []) =
      { start := mkEv 0 .START_FEED "a", endEvt := some (mkEv 5 .STOP_FEED "b") } ::
        matchSessionsAux EventType.START_FEED EventType.STOP_FEED none [] ∧
    matchSessionsAux EventType.START_FEED EventType.STOP_FEED (some (mkEv 0 .START_FEED "a"))
        (mkEv 5 .START_FEED "c" :: []) =
      { start := mkEv 0 .START_FEED "a", endEvt := none } ::
        matchSessionsAux EventType.START_FEED EventType.STOP_FEED (some (mkEv 5 .START_FEED "c")) [] ∧
    matchSessionsAux EventType.START_FEED EventType.STOP_FEED (some (mkEv 0 .START_FEED "a")) [] =
      [{ start := mkEv 0 .START_FEED "a", endEvt := none }] := by
  have h := matchSessions_characterization .START_FEED .STOP_FEED (by decide)
  exact ⟨h.2.1 _ _ rfl, h.2.2.1 _ _ _ rfl, h.2.2.2.1 _ _ _ rfl, h.2.2.2.2 _⟩

/-- C3 (counterexample): a record posted at 00:09 on 2026-01-13 whose text
reads "start papa 23:50" is emitted at 23:50 of the same calendar day
2026-01-13, not of the previous day 2026-01-12. -/
theorem midnight_rollback_counterexample :
    (parseEntry
        { date := daysFromCivil 2026 1 13 * 1440 + 9, author := "Cristi",
          message := "start papa 23:50" }
        { lastFeedWasStop := true, lastSleepWasStop := true }).1 =
      [mkEv (daysFromCivil 2026 1 13 * 1440 + 23 * 60 + 50) .START_FEED "start papa 23:50"] ∧
    dayOf (daysFromCivil 2026 1 13 * 1440 + 23 * 60 + 50) = daysFromCivil 2026 1 13 ∧
    daysFromCivil 2026 1 13 ≠ daysFromCivil 2026 1 12 := by
  decide

/-- C6 (counterexample): the message "schimbat pipi + caca 10:00" yields two
diaper events (`WET_DIAPER_CHANGE` and `DIRTY_DIAPER_CHANGE`), not a single
diaper event of a combined kind. -/
theorem diaper_both_tokens_counterexample :
    (parseEntry
        { date := 100 * 1440 + 610, author := "Catalina",
          message := "schimbat pipi + caca 10:00" }
        { lastFeedWasStop := true, lastSleepWasStop := true }).1 =
      [mkEv (100 * 1440 + 600) .WET_DIAPER_CHANGE "schimbat pipi + caca 10:00",
       mkEv (100 * 1440 + 600) .DIRTY_DIAPER_CHANGE "schimbat pipi + caca 10:00"] ∧
    (parseEntry
        { date := 100 * 1440 + 610, author := "Catalina",
          message := "schimbat pipi + caca 10:00" }
        { lastFeedWasStop := true, lastSleepWasStop := true }).1.length ≠ 1 := by
  decide

/-- C1 (counterexample): after "Start somn 14:00" the sleep flag records a
start (`lastSleepWasStop = false`), so by the claim the following bare
"somn 14:40" should be emitted as a STOP; the code emits `START_SLEEP`. -/
theorem implicit_sleep_toggle_counterexample :
    (parseEntry { date := 100 * 1440 + 840, author := "A", message := "Start somn 14:00" }
        { lastFeedWasStop := true, lastSleepWasStop := true }).2.lastSleepWasStop = false ∧
    ((parseEntry { date := 100 * 1440 + 880, author := "A", message := "somn 14:40" }
        { lastFeedWasStop := true, lastSleepWasStop := false }).1.map (fun ev => ev.type) =
      [EventType.START_SLEEP]) ∧
    ((processEntries
        [{ date := 100 * 1440 + 840, author := "A", message := "Start somn 14:00" },
         { date := 100 * 1440 + 880, author := "A", message := "somn 14:40" }]
        { lastFeedWasStop := true, lastSleepWasStop := true }).map (fun ev => ev.type) =
      [EventType.START_SLEEP, EventType.START_SLEEP]) := by
  decide

/-- C7 (counterexample): a sleep session starting exactly at the night-start
hour (21:00, session 21:00–22:00 of day 0) is flagged as night sleep, yet it
is filed in the day list (the evening test is strict `isAfter`), so the
night-flagged sessions are not partitioned into morning and evening sessions
and its minutes land in the day total. -/
theorem night_partition_counterexample :
    ((classifySleep 0
        [{ start := mkEv 1260 .START_SLEEP "start somn",
           endEvt := some (mkEv 1320 .STOP_SLEEP "trezit") }]).naps.getD 0 dNap).isNightSleep = true ∧
    (classifySleep 0
        [{ start := mkEv 1260 .START_SLEEP "start somn",
           endEvt := some (mkEv 1320 .STOP_SLEEP "trezit") }]).mornIdx = [] ∧
    (classifySleep 0
        [{ start := mkEv 1260 .START_SLEEP "start somn",
           endEvt := some (mkEv 1320 .STOP_SLEEP "trezit") }]).eveIdx = [] ∧
    (classifySleep 0
        [{ start := mkEv 1260 .START_SLEEP "start somn",
           endEvt := some (mkEv 1320 .STOP_SLEEP "trezit") }]).dayIdx = [0] ∧
    hourOf 1260 = NIGHT_START_HOUR ∧
    totalNightSleep 0
        [{ start := mkEv 1260 .START_SLEEP "start somn",
           endEvt := some (mkEv 1320 .STOP_SLEEP "trezit") }] = 0 ∧
    totalDaySleep 0
        [{ start := mkEv 1260 .START_SLEEP "start somn",
           endEvt := some (mkEv 1320 .STOP_SLEEP "trezit") }] = 60 := by
  decide

/-- C8 (counterexample): a continuation line is appended to the open record's
message with a separating space, not a line break. -/
theorem continuation_separator_counterexample :
    (tokenizeLogFile "01/01/2026, 10:00 - A: start papa 10:00\ncont x").map
        (fun r => r.message) = ["start papa 10:00 cont x"] ∧
    "start papa 10:00 cont x" ≠ "start papa 10:00\ncont x" := by
  decide

/-- C3 (amended): the extractor performs no midnight-crossing rollback: for
any content time that is a real time of day, `combineInt` (and hence the
`createTimestamp` helper of `parseEntry`) keeps the record's own calendar
day and installs the content time of day, even when the content time is
later in the day than the record's time. -/
theorem combineInt_same_day (entry : RawLogEntry) (t : Hm)
    (hh : t.hour < 24) (hm : t.minute < 60) :
    dayOf (combineInt entry.date t) = dayOf entry.date ∧
    minOfDay (combineInt entry.date t) = t.hour * 60 + t.minute ∧
    createTimestamp entry (some t) = combineInt entry.date t := by
  refine ⟨?_, ?_, rfl⟩ <;>
  · simp only [combineInt, dayOf, minOfDay]
    omega

/-- Witness for C3 (amended) at the scenario record: posted 00:09 on
2026-01-13, content time 23:50. -/
theorem combineInt_same_day_witness :
    (23 : Nat) < 24 ∧ (50 : Nat) < 60 ∧
    dayOf (combineInt
      ({ date := daysFromCivil 2026 1 13 * 1440 + 9, author := "Cristi",
         message := "start papa 23:50" } : RawLogEntry).date ⟨23, 50⟩) =
      dayOf ({ date := daysFromCivil 2026 1 13 * 1440 + 9, author := "Cristi",
               message := "start papa 23:50" } : RawLogEntry).date :=
  ⟨by decide, by decide,
    (combineInt_same_day
      { date := daysFromCivil 2026 1 13 * 1440 + 9, author := "Cristi",
        message := "start papa 23:50" } ⟨23, 50⟩ (by decide) (by decide)).1⟩

/-- C1 (amended): with no explicit marker, no time range, no diaper keyword
and no weight, a feed-only message toggles on the feed flag exactly as the
claim states; a sleep-only message ignores the sleep flag: it yields a STOP
if it contains the word "dormit", a START if the sleep keyword is followed by
a digit, and nothing otherwise, setting (not toggling) the flag. -/
theorem implicit_marker_resolution :
    (∀ (entry : RawLogEntry) (st : ParserState),
      isDeletedMessage entry.message = false →
      extractWeight entry.message = none →
      isDiaperChange entry.message = false →
      extractTimeRange entry.message = none →
      isFeedMessage entry.message = true →
      isSleepMessage entry.message = false →
      isStartIndicator entry.message = false →
      isStopIndicator entry.message = false →
      parseEntry entry st =
        ([mkEv (createTimestamp entry (extractTimeFromMessage entry.message))
            (if st.lastFeedWasStop then .START_FEED else .END_FEED) entry.message],
         { st with lastFeedWasStop := !st.lastFeedWasStop })) ∧
    (∀ (entry : RawLogEntry) (st : ParserState),
      isDeletedMessage entry.message = false →
      extractWeight entry.message = none →
      isDiaperChange entry.message = false →
      extractTimeRange entry.message = none →
      isFeedMessage entry.message = false →
      isSleepMessage entry.message = true →
      isStartIndicator entry.message = false →
      isStopIndicator entry.message = false →
      containsSub "trezit".data (lowerOf entry.message) = false →
      reTest dormitRe (lowerOf entry.message) = true →
      parseEntry entry st =
        ([mkEv (createTimestamp entry (extractTimeFromMessage entry.message))
            .STOP_SLEEP entry.message],
         { st with lastSleepWasStop := true })) ∧
    (∀ (entry : RawLogEntry) (st : ParserState),
      isDeletedMessage entry.message = false →
      extractWeight entry.message = none →
      isDiaperChange entry.message = false →
      extractTimeRange entry.message = none →
      isFeedMessage entry.message = false →
      isSleepMessage entry.message = true →
      isStartIndicator entry.message = false →
      isStopIndicator entry.message = false →
      containsSub "trezit".data (lowerOf entry.message) = false →
      reTest dormitRe (lowerOf entry.message) = false →
      reTest somnDigitRe (lowerOf entry.message) = true →
      parseEntry entry st =
        ([mkEv (createTimestamp entry (extractTimeFromMessage entry.message))
            .START_SLEEP entry.message],
         { st with lastSleepWasStop := false })) ∧
    (∀ (entry : RawLogEntry) (st : ParserState),
      isDeletedMessage entry.message = false →
      extractWeight entry.message = none →
      isDiaperChange entry.message = false →
      extractTimeRange entry.message = none →
      isFeedMessage entry.message = false →
      isSleepMessage entry.message = true →
      isStartIndicator entry.message = false →
      isStopIndicator entry.message = false →
      containsSub "trezit".data (lowerOf entry.message) = false →
      reTest dormitRe (lowerOf entry.message) = false →
      reTest somnDigitRe (lowerOf entry.message) = false →
      parseEntry entry st = ([], st)) := by
  refine ⟨?_, ?_, ?_, ?_⟩
  · intro entry st hdel hw hdiap hrange hfeed hsleep hstart hstop
    cases hfs : st.lastFeedWasStop <;>
      simp [parseEntry, hdel, hw, hdiap, hrange, hfeed, hsleep, hstart, hstop,
        parseEntryRest, feedSection, weightEvents, diaperEvents, hfs]
  · intro entry st hdel hw hdiap hrange hfeed hsleep hstart hstop htrez hdorm
    simp [parseEntry, hdel, hw, hdiap, hrange, hfeed, hsleep, hstart, hstop,
      parseEntryRest, sleepSection, weightEvents, diaperEvents, htrez, hdorm]
  · intro entry st hdel hw hdiap hrange hfeed hsleep hstart hstop htrez hdorm hsomn
    simp [parseEntry, hdel, hw, hdiap, hrange, hfeed, hsleep, hstart, hstop,
      parseEntryRest, sleepSection, weightEvents, diaperEvents, htrez, hdorm, hsomn]
  · intro entry st hdel hw hdiap hrange hfeed hsleep hstart hstop htrez hdorm hsomn
    simp [parseEntry, hdel, hw, hdiap, hrange, hfeed, hsleep, hstart, hstop,
      parseEntryRest, sleepSection, weightEvents, diaperEvents, htrez, hdorm, hsomn]

/-- Witness for C1 (amended): a feed message toggling from the stop state,
a "dormit" message, a bare "somn 14:40" message and a markerless sleep
message with no digit after the keyword. -/
theorem implicit_marker_resolution_witness :
    parseEntry { date := 600, author := "A", message := "papa 10:00" }
        { lastFeedWasStop := true, lastSleepWasStop := true } =
      ([mkEv 600 .START_FEED "papa 10:00"],
       { lastFeedWasStop := false, lastSleepWasStop := true }) ∧
    parseEntry { date := 800, author := "A", message := "a dormit 13:00" }
        { lastFeedWasStop := true, lastSleepWasStop := false } =
      ([mkEv 780 .STOP_SLEEP "a dormit 13:00"],
       { lastFeedWasStop := true, lastSleepWasStop := true }) ∧
    parseEntry { date := 880, author := "A", message := "somn 14:40" }
        { lastFeedWasStop := true, lastSleepWasStop := false } =
      ([mkEv 880 .START_SLEEP "somn 14:40"],
       { lastFeedWasStop := true, lastSleepWasStop := false }) ∧
    parseEntry { date := 900, author := "A", message := "somnic bun" }
        { lastFeedWasStop := true, lastSleepWasStop := false } =
      ([], { lastFeedWasStop := true, lastSleepWasStop := false }) := by
  have h := implicit_marker_resolution
  refine ⟨?_, ?_, ?_, ?_⟩
  · have := h.1 { date := 600, author := "A", message := "papa 10:00" }
      { lastFeedWasStop := true, lastSleepWasStop := true }
      (by decide) (by decide) (by decide) (by decide) (by decide) (by decide)
      (by decide) (by decide)
    rw [this]; decide
  · have := h.2.1 { date := 800, author := "A", message := "a dormit 13:00" }
      { lastFeedWasStop := true, lastSleepWasStop := false }
      (by decide) (by decide) (by decide) (by decide) (by decide) (by decide)
      (by decide) (by decide) (by decide) (by decide)
    rw [this]; decide
  · have := h.2.2.1 { date := 880, author := "A", message := "somn 14:40" }
      { lastFeedWasStop := true, lastSleepWasStop := false }
      (by decide) (by decide) (by decide) (by decide) (by decide) (by decide)
      (by decide) (by decide) (by decide) (by decide) (by decide)
    rw [this]; decide
  · exact h.2.2.2 { date := 900, author := "A", message := "somnic bun" }
      { lastFeedWasStop := true, lastSleepWasStop := false }
      (by decide) (by decide) (by decide) (by decide) (by decide) (by decide)
      (by decide) (by decide) (by decide) (by decide) (by decide)

/-- `diaperFilter` distributes over append. -/
theorem diaperFilter_append (a b : List ParsedEvent) :
    diaperFilter (a ++ b) = diaperFilter a ++ diaperFilter b :=
  List.filter_append a b

/-- The feed block only appends feed-typed events, so it leaves the diaper
events unchanged. -/
theorem diaperFilter_feedSection (msg : String) (ts : Int)
    (evs : List ParsedEvent) (st : ParserState) :
    diaperFilter (feedSection msg ts evs st).1 = diaperFilter evs := by
  simp only [feedSection]
  split_ifs <;> simp [diaperFilter, List.filter_append, mkEv]

/-- The sleep block only appends sleep-typed events. -/
theorem diaperFilter_sleepSection (msg : String) (ts : Int)
    (evs : List ParsedEvent) (st : ParserState) :
    diaperFilter (sleepSection msg ts evs st).1 = diaperFilter evs := by
  simp only [sleepSection]
  split_ifs <;> simp [diaperFilter, List.filter_append, mkEv]

/-- The combined block only appends feed- and sleep-typed events. -/
theorem diaperFilter_combinedSection (msg : String) (ts : Int)
    (evs : List ParsedEvent) (st : ParserState) :
    diaperFilter (combinedSection msg ts evs st).1 = diaperFilter evs := by
  simp only [combinedSection]
  split_ifs <;> simp [diaperFilter, List.filter_append, mkEv]

/-- The whole post-range part of `parseEntry` leaves the diaper events
unchanged. -/
theorem diaperFilter_parseEntryRest (msg : String) (ts : Int)
    (evs : List ParsedEvent) (st : ParserState) :
    diaperFilter (parseEntryRest msg ts evs st).1 = diaperFilter evs := by
  simp only [parseEntryRest]
  split_ifs <;>
    simp only [diaperFilter_combinedSection, diaperFilter_sleepSection,
      diaperFilter_feedSection]

/-- C6 (amended): for a diaper-change message the extractor's diaper events
are exactly: both a `WET_DIAPER_CHANGE` and a `DIRTY_DIAPER_CHANGE` event
when both a wet and a dirty token are present; one `DIRTY_DIAPER_CHANGE` for
dirty-only; one `WET_DIAPER_CHANGE` for wet-only; and one generic
`DIAPER_CHANGE` when neither token is present — and no other part of
`parseEntry` adds or removes diaper-typed events. -/
theorem diaper_classification (entry : RawLogEntry) (st : ParserState)
    (hdel : isDeletedMessage entry.message = false)
    (hd : isDiaperChange entry.message = true) :
    diaperFilter (parseEntry entry st).1 =
      (if hasWetToken entry.message && hasDirtyToken entry.message then
        [mkEv (createTimestamp entry (extractTimeFromMessage entry.message))
           .WET_DIAPER_CHANGE entry.message,
         mkEv (createTimestamp entry (extractTimeFromMessage entry.message))
           .DIRTY_DIAPER_CHANGE entry.message]
      else if hasDirtyToken entry.message then
        [mkEv (createTimestamp entry (extractTimeFromMessage entry.message))
           .DIRTY_DIAPER_CHANGE entry.message]
      else if hasWetToken entry.message then
        [mkEv (createTimestamp entry (extractTimeFromMessage entry.message))
           .WET_DIAPER_CHANGE entry.message]
      else
        [mkEv (createTimestamp entry (extractTimeFromMessage entry.message))
           .DIAPER_CHANGE entry.message]) := by
  have hbase :
      diaperFilter (weightEvents entry.message
          (createTimestamp entry (extractTimeFromMessage entry.message)) ++
        diaperEvents entry.message
          (createTimestamp entry (extractTimeFromMessage entry.message))) =
      (if hasWetToken entry.message && hasDirtyToken entry.message then
        [mkEv (createTimestamp entry (extractTimeFromMessage entry.message))
           .WET_DIAPER_CHANGE entry.message,
         mkEv (createTimestamp entry (extractTimeFromMessage entry.message))
           .DIRTY_DIAPER_CHANGE entry.message]
      else if hasDirtyToken entry.message then
        [mkEv (createTimestamp entry (extractTimeFromMessage entry.message))
           .DIRTY_DIAPER_CHANGE entry.message]
      else if hasWetToken entry.message then
        [mkEv (createTimestamp entry (extractTimeFromMessage entry.message))
           .WET_DIAPER_CHANGE entry.message]
      else
        [mkEv (createTimestamp entry (extractTimeFromMessage entry.message))
           .DIAPER_CHANGE entry.message]) := by
    have hw : diaperFilter (weightEvents entry.message
        (createTimestamp entry (extractTimeFromMessage entry.message))) = [] := by
      simp only [weightEvents]
      cases extractWeight entry.message <;> simp [diaperFilter]
    rw [diaperFilter_append, hw, List.nil_append]
    simp only [diaperEvents, getDiaperType, hd, if_true]
    split_ifs <;> simp [diaperFilter, mkEv]
  simp only [parseEntry, hdel, Bool.false_eq_true, if_false]
  cases hr : extractTimeRange entry.message with
  | none => rw [diaperFilter_parseEntryRest, hbase]
  | some r =>
    by_cases hf : isFeedMessage entry.message
    · simp only [hf, if_true]
      rw [diaperFilter_append, hbase]
      have h2 : diaperFilter
          [mkEv (combineInt entry.date r.start) .START_FEED entry.message,
           mkEv (combineInt entry.date r.stop) .END_FEED entry.message] = [] := rfl
      rw [h2, List.append_nil]
    · simp only [Bool.not_eq_true] at hf
      simp only [hf, Bool.false_eq_true, if_false]
      by_cases hs : isSleepMessage entry.message
      · simp only [hs, if_true]
        rw [diaperFilter_append, hbase]
        have h2 : diaperFilter
            [mkEv (combineInt entry.date r.start) .START_SLEEP entry.message,
             mkEv (combineInt entry.date r.stop) .STOP_SLEEP entry.message] = [] := rfl
        rw [h2, List.append_nil]
      · simp only [Bool.not_eq_true] at hs
        simp only [hs, Bool.false_eq_true, if_false]
        rw [diaperFilter_parseEntryRest, hbase]

/-- Witness for C6 (amended) at the scenario message
"schimbat pipi + caca 10:00". -/
theorem diaper_classification_witness :
    diaperFilter (parseEntry
        { date := 100 * 1440 + 610, author := "Catalina",
          message := "schimbat pipi + caca 10:00" }
        { lastFeedWasStop := true, lastSleepWasStop := true }).1 =
      [mkEv (100 * 1440 + 600) .WET_DIAPER_CHANGE "schimbat pipi + caca 10:00",
       mkEv (100 * 1440 + 600) .DIRTY_DIAPER_CHANGE "schimbat pipi + caca 10:00"] := by
  have h := diaper_classification
    { date := 100 * 1440 + 610, author := "Catalina",
      message := "schimbat pipi + caca 10:00" }
    { lastFeedWasStop := true, lastSleepWasStop := true }
    (by decide) (by decide)
  rw [h]; decide

/-- The event loop of `parseLogFile` is the tokenizer loop followed by the
stateful `parseEntry` fold. -/
theorem plfLoop_eq_processEntries :
    ∀ (ls : List String) (cur : Option RawLogEntry) (st : ParserState),
      plfLoop ls cur st = processEntries (tokLoop ls cur) st := by
  intro ls
  induction ls with
  | nil => intro cur st; cases cur <;> simp [plfLoop, tokLoop, processEntries]
  | cons l ls ih =>
    intro cur st
    simp only [plfLoop, tokLoop]
    by_cases ht : jsTrim l = ""
    · simp only [ht, if_true, ih]
    · simp only [ht, if_false]
      cases hp : parseLogLine (jsTrim l) with
      | some parsed =>
        cases cur with
        | some e => simp [processEntries, ih]
        | none => simp [ih]
      | none =>
        cases cur with
        | some e => simp [ih]
        | none => simp [ih]

/-- C8 (amended): the line handling of `parseLogFile`: `parseLogFile` runs
the extractor fold over the tokenizer's records and sorts; a blank line is
dropped; a header line finalizes the open record and opens a new one (or
opens the first); a non-blank non-header line is appended to the open
record's message with a separating space; a non-header line with no open
record is silently dropped; the record still open at end of input is
finalized. -/
theorem line_tokenizer_rules :
    (∀ content : String, parseLogFile content =
      List.insertionSort tsLe (processEntries (tokenizeLogFile content)
        { lastFeedWasStop := true, lastSleepWasStop := true })) ∧
    (∀ (ls : List String) (cur : Option RawLogEntry) (l : String), jsTrim l = "" →
      tokLoop (l :: ls) cur = tokLoop ls cur) ∧
    (∀ (ls : List String) (l : String) (r e : RawLogEntry), jsTrim l ≠ "" →
      parseLogLine (jsTrim l) = some r →
      tokLoop (l :: ls) (some e) = e :: tokLoop ls (some r)) ∧
    (∀ (ls : List String) (l : String) (r : RawLogEntry), jsTrim l ≠ "" →
      parseLogLine (jsTrim l) = some r →
      tokLoop (l :: ls) none = tokLoop ls (some r)) ∧
    (∀ (ls : List String) (l : String) (e : RawLogEntry), jsTrim l ≠ "" →
      parseLogLine (jsTrim l) = none →
      tokLoop (l :: ls) (some e) =
        tokLoop ls (some { e with message := e.message ++ " " ++ jsTrim l })) ∧
    (∀ (ls : List String) (l : String), jsTrim l ≠ "" →
      parseLogLine (jsTrim l) = none → tokLoop (l :: ls) none = tokLoop ls none) ∧
    (∀ e : RawLogEntry, tokLoop [] (some e) = [e]) := by
  refine ⟨?_, ?_, ?_, ?_, ?_, ?_, fun _ => rfl⟩
  · intro content
    simp only [parseLogFile, tokenizeLogFile, plfLoop_eq_processEntries]
  · intro ls cur l ht; simp [tokLoop, ht]
  · intro ls l r e ht hp; simp [tokLoop, ht, hp]
  · intro ls l r ht hp; simp [tokLoop, ht, hp]
  · intro ls l e ht hp; simp [tokLoop, ht, hp]
  · intro ls l ht hp; simp [tokLoop, ht, hp]

/-- Witness for C8 (amended) on concrete lines: a header line, a blank line,
a continuation line and leading garbage. -/
theorem line_tokenizer_rules_witness :
    parseLogFile "x" =
      List.insertionSort tsLe (processEntries (tokenizeLogFile "x")
        { lastFeedWasStop := true, lastSleepWasStop := true }) ∧
    tokLoop ["  "] none = tokLoop [] none ∧
    tokLoop ["01/01/2026, 10:00 - A: hello"]
        (some { date := 0, author := "B", message := "prev" }) =
      { date := 0, author := "B", message := "prev" } ::
        tokLoop [] (some { date := jsDateValue 2026 0 1 10 0, author := "A", message := "hello" }) ∧
    tokLoop ["cont x"] (some { date := 0, author := "B", message := "prev" }) =
      tokLoop [] (some { date := 0, author := "B", message := "prev cont x" }) ∧
    tokLoop ["garbage"] none = tokLoop [] none := by
  have h := line_tokenizer_rules
  refine ⟨h.1 "x", h.2.1 [] none "  " (by decide), ?_, ?_, ?_⟩
  · have := h.2.2.1 [] "01/01/2026, 10:00 - A: hello"
      { date := jsDateValue 2026 0 1 10 0, author := "A", message := "hello" }
      { date := 0, author := "B", message := "prev" } (by decide) (by decide)
    simpa using this
  · have := h.2.2.2.2.1 [] "cont x" { date := 0, author := "B", message := "prev" }
      (by decide) (by decide)
    simpa using this
  · exact h.2.2.2.2.2.1 [] "garbage" (by decide) (by decide)

/-! ### Sleep-classification invariants -/

/-- `sumIdx` distributes over index-list append. -/
theorem sumIdx_append (naps : List Nap) (a b : List Nat) :
    sumIdx naps (a ++ b) = sumIdx naps a + sumIdx naps b := by
  simp [sumIdx]

/-- `sumIdx` only depends on the durations at the listed indices. -/
theorem sumIdx_congr {naps naps' : List Nap} {idx : List Nat}
    (h : ∀ i ∈ idx, (naps'.getD i dNap).durationMinutes = (naps.getD i dNap).durationMinutes) :
    sumIdx naps' idx = sumIdx naps idx := by
  unfold sumIdx
  exact congrArg List.sum (List.map_congr_left fun i hi => h i hi)

/-- Appending naps does not change lookups at in-range indices. -/
theorem getD_naps_append {naps : List Nap} {i : Nat} (more : List Nap)
    (h : i < naps.length) : (naps ++ more).getD i dNap = naps.getD i dNap :=
  List.getD_append naps more dNap i h

/-- Setting one nap preserves every duration when the new nap keeps the old
duration. -/
theorem durations_set {naps : List Nap} {i : Nat} {x : Nap}
    (hdur : x.durationMinutes = (naps.getD i dNap).durationMinutes) :
    ∀ j, ((naps.set i x).getD j dNap).durationMinutes =
      (naps.getD j dNap).durationMinutes := by
  intro j
  by_cases hij : i = j
  · subst hij
    by_cases hi : i < naps.length
    · rw [List.getD_eq_getElem?_getD, List.getElem?_set_self, List.getD_eq_getElem?_getD]
      · rcases h' : naps[i]? with _ | v
        · rw [List.getElem?_eq_none_iff] at h'; omega
        · simp [h', hdur, List.getD_eq_getElem?_getD]
      · exact hi
    · rw [List.getD_eq_getElem?_getD, List.getD_eq_getElem?_getD]
      rw [List.getElem?_set]
      simp [show ¬ i < naps.length from hi, List.getElem?_eq_none (by omega : naps.length ≤ i)]
  · rw [List.getD_eq_getElem?_getD, List.getD_eq_getElem?_getD, List.getElem?_set_ne hij]

/-- The classification step preserves the structural invariant. -/
theorem classifyStep_inv (d : Int) (st : ClassState) (s : SessionMatch)
    (h : ClassInv st) : ClassInv (classifyStep d st s) := by
  obtain ⟨hb, hnd, hsum⟩ := h
  obtain ⟨sstart, sendEvt⟩ := s
  have hmem3 : ∀ i, i ∈ idxConcat st ↔
      (i ∈ st.dayIdx ∨ i ∈ st.mornIdx ∨ i ∈ st.eveIdx) := by
    intro i; simp [idxConcat, List.mem_append, or_assoc]
  cases sendEvt with
  | none => exact ⟨hb, hnd, hsum⟩
  | some e =>
    simp only [classifyStep]
    by_cases hday : dayOf sstart.timestamp ≠ d
    · rw [if_pos hday]; exact ⟨hb, hnd, hsum⟩
    · rw [if_neg hday]
      by_cases hdur : e.timestamp - sstart.timestamp ≤ 0 ∨ 720 ≤ e.timestamp - sstart.timestamp
      · rw [if_pos hdur]; exact ⟨hb, hnd, hsum⟩
      · rw [if_neg hdur]
        set n := st.naps.length with hn
        set nap : Nap :=
          { startTime := minOfDay sstart.timestamp, endTime := minOfDay e.timestamp,
            durationMinutes := e.timestamp - sstart.timestamp,
            isNightSleep := isNightTime (hourOf sstart.timestamp),
            rawMessages := [sstart.rawMessage, e.rawMessage] } with hnap
        have hb' : ∀ i, (i ∈ st.dayIdx ∨ i ∈ st.mornIdx ∨ i ∈ st.eveIdx) → i < n :=
          fun i hi => hb i ((hmem3 i).2 hi)
        have hgetold : ∀ i, i < n →
            ((st.naps ++ [nap]).getD i dNap).durationMinutes =
              (st.naps.getD i dNap).durationMinutes := fun i hi => by
          rw [getD_naps_append [nap] hi]
        have hgetnew : ((st.naps ++ [nap]).getD n dNap).durationMinutes =
            nap.durationMinutes := by
          simp [hn, List.getD_eq_getElem?_getD]
        have hsum_day : sumIdx (st.naps ++ [nap]) st.dayIdx = sumIdx st.naps st.dayIdx :=
          sumIdx_congr fun i hi => hgetold i (hb' i (Or.inl hi))
        have hsum_morn : sumIdx (st.naps ++ [nap]) st.mornIdx = sumIdx st.naps st.mornIdx :=
          sumIdx_congr fun i hi => hgetold i (hb' i (Or.inr (Or.inl hi)))
        have hsum_eve : sumIdx (st.naps ++ [nap]) st.eveIdx = sumIdx st.naps st.eveIdx :=
          sumIdx_congr fun i hi => hgetold i (hb' i (Or.inr (Or.inr hi)))
        have hsum_n : sumIdx (st.naps ++ [nap]) [n] = nap.durationMinutes := by
          simp [sumIdx, hgetnew]
        have hdureq : nap.durationMinutes = e.timestamp - sstart.timestamp := rfl
        have hfresh : n ∉ idxConcat st := fun hmem => absurd (hb n hmem) (lt_irrefl n)
        have hlen : (st.naps ++ [nap]).length = n + 1 := by simp [hn]
        split_ifs with h1 h2
        · -- filed as a morning session
          refine ⟨?_, ?_, ?_⟩
          · intro i hi
            simp only [idxConcat, List.mem_append, List.mem_singleton, or_assoc] at hi
            rw [hlen]
            rcases hi with (hi | hi | hi | hi)
            · exact Nat.lt_succ_of_lt (hb' i (Or.inl hi))
            · exact Nat.lt_succ_of_lt (hb' i (Or.inr (Or.inl hi)))
            · omega
            · exact Nat.lt_succ_of_lt (hb' i (Or.inr (Or.inr hi)))
          · have hp : List.Perm (st.dayIdx ++ (st.mornIdx ++ [n]) ++ st.eveIdx)
                (n :: idxConcat st) := by
              have heq : st.dayIdx ++ (st.mornIdx ++ [n]) ++ st.eveIdx =
                  (st.dayIdx ++ st.mornIdx) ++ (n :: st.eveIdx) := by
                simp [List.append_assoc]
              rw [heq]
              exact List.perm_middle
            simp only [idxConcat] at hp ⊢
            exact hp.nodup_iff.mpr (List.nodup_cons.2 ⟨hfresh, hnd⟩)
          · simp only [idxConcat]
            rw [hsum_day, sumIdx_append, hsum_morn, hsum_n, hsum_eve]
            omega
        · -- filed as an evening session
          refine ⟨?_, ?_, ?_⟩
          · intro i hi
            simp only [idxConcat, List.mem_append, List.mem_singleton, or_assoc] at hi
            rw [hlen]
            rcases hi with (hi | hi | hi | hi)
            · exact Nat.lt_succ_of_lt (hb' i (Or.inl hi))
            · exact Nat.lt_succ_of_lt (hb' i (Or.inr (Or.inl hi)))
            · exact Nat.lt_succ_of_lt (hb' i (Or.inr (Or.inr hi)))
            · omega
          · have hp : List.Perm (st.dayIdx ++ st.mornIdx ++ (st.eveIdx ++ [n]))
                (n :: idxConcat st) := by
              have heq : st.dayIdx ++ st.mornIdx ++ (st.eveIdx ++ [n]) =
                  (st.dayIdx ++ st.mornIdx ++ st.eveIdx) ++ [n] := by
                simp [List.append_assoc]
              rw [heq]
              exact List.perm_append_singleton n _
            simp only [idxConcat] at hp ⊢
            exact hp.nodup_iff.mpr (List.nodup_cons.2 ⟨hfresh, hnd⟩)
          · simp only [idxConcat]
            rw [hsum_day, hsum_morn, sumIdx_append, hsum_eve, hsum_n]
            omega
        · -- filed as a day session
          refine ⟨?_, ?_, ?_⟩
          · intro i hi
            simp only [idxConcat, List.mem_append, List.mem_singleton, or_assoc] at hi
            rw [hlen]
            rcases hi with (hi | hi | hi | hi)
            · exact Nat.lt_succ_of_lt (hb' i (Or.inl hi))
            · omega
            · exact Nat.lt_succ_of_lt (hb' i (Or.inr (Or.inl hi)))
            · exact Nat.lt_succ_of_lt (hb' i (Or.inr (Or.inr hi)))
          · have hp : List.Perm ((st.dayIdx ++ [n]) ++ st.mornIdx ++ st.eveIdx)
                (n :: idxConcat st) := by
              have heq : (st.dayIdx ++ [n]) ++ st.mornIdx ++ st.eveIdx =
                  st.dayIdx ++ (n :: (st.mornIdx ++ st.eveIdx)) := by
                simp [List.append_assoc]
              have heq2 : (n : Nat) :: idxConcat st =
                  n :: (st.dayIdx ++ (st.mornIdx ++ st.eveIdx)) := by
                simp [idxConcat, List.append_assoc]
              rw [heq, heq2]
              exact List.perm_middle
            simp only [idxConcat] at hp ⊢
            exact hp.nodup_iff.mpr (List.nodup_cons.2 ⟨hfresh, hnd⟩)
          · simp only [idxConcat]
            rw [sumIdx_append, hsum_day, hsum_n, hsum_morn, hsum_eve]
            omega

/-- The classification pass establishes the invariant. -/
theorem classifySleep_inv (d : Int) (ss : List SessionMatch) :
    ClassInv (classifySleep d ss) := by
  have hgen : ∀ (l : List SessionMatch) (st : ClassState), ClassInv st →
      ClassInv (l.foldl (classifyStep d) st) := by
    intro l
    induction l with
    | nil => intro st h; exact h
    | cons s l ih => intro st h; exact ih _ (classifyStep_inv d st s h)
  exact hgen ss _ ⟨by simp [idxConcat, emptyClassState], by simp [idxConcat, emptyClassState],
    by simp [idxConcat, emptyClassState, sumIdx]⟩

/-- The accumulated total sleep time is the sum of the valid durations. -/
theorem classifySleep_total (d : Int) (ss : List SessionMatch) :
    (classifySleep d ss).totalSleepTime = (validSleepDurations d ss).sum := by
  have hgen : ∀ (l : List SessionMatch) (st : ClassState),
      (l.foldl (classifyStep d) st).totalSleepTime =
        st.totalSleepTime + (validSleepDurations d l).sum := by
    intro l
    induction l with
    | nil => intro st; simp [validSleepDurations]
    | cons s l ih =>
      intro st
      obtain ⟨sstart, sendEvt⟩ := s
      cases sendEvt with
      | none => simp [List.foldl_cons, validSleepDurations, classifyStep, ih,
          List.filterMap_cons]
      | some e =>
        simp only [List.foldl_cons, validSleepDurations, List.filterMap_cons]
        by_cases hday : dayOf sstart.timestamp = d
        · by_cases hdur : e.timestamp - sstart.timestamp ≤ 0 ∨
              720 ≤ e.timestamp - sstart.timestamp
          · have hstep : classifyStep d st ⟨sstart, some e⟩ = st := by
              simp only [classifyStep]
              rw [if_neg (by simpa using hday), if_pos hdur]
            rw [hstep, ih]
            simp only [hday, if_pos rfl]
            rw [if_pos hdur]
            simp [validSleepDurations]
          · have hstep : (classifyStep d st ⟨sstart, some e⟩).totalSleepTime =
                st.totalSleepTime + (e.timestamp - sstart.timestamp) := by
              simp only [classifyStep]
              rw [if_neg (by simpa using hday), if_neg hdur]
              split_ifs <;> rfl
            rw [ih, hstep]
            simp only [hday, if_pos rfl]
            rw [if_neg hdur]
            simp [validSleepDurations]
            omega
        · have hstep : classifyStep d st ⟨sstart, some e⟩ = st := by
            simp only [classifyStep]
            rw [if_pos (by simpa using hday)]
          rw [hstep, ih]
          simp [validSleepDurations, hday]
  rw [classifySleep, hgen]
  simp [emptyClassState]

/-- The morning-boundary reclassification preserves the invariant and the
accumulated total. -/
theorem reclassifyMorning_inv (st : ClassState) (h : ClassInv st) :
    ClassInv (reclassifyMorning st) ∧
    (reclassifyMorning st).totalSleepTime = st.totalSleepTime := by
  obtain ⟨hb, hnd, hsum⟩ := h
  have hmem3 : ∀ i, i ∈ idxConcat st ↔
      (i ∈ st.dayIdx ∨ i ∈ st.mornIdx ∨ i ∈ st.eveIdx) := by
    intro i; simp [idxConcat, List.mem_append, or_assoc]
  unfold reclassifyMorning
  by_cases hlen : st.mornIdx.length ≥ 2
  case neg => rw [if_neg hlen]; exact ⟨⟨hb, hnd, hsum⟩, rfl⟩
  case pos =>
  rw [if_pos hlen]
  rcases List.eq_nil_or_concat st.mornIdx with hnil | ⟨l', a, hma⟩
  · rw [hnil] at hlen; simp at hlen
  · have hma' : st.mornIdx = l' ++ [a] := by rw [hma]; simp
    have hglast : st.mornIdx.getLastD 0 = a := by rw [hma']; simp
    have hdrop : st.mornIdx.dropLast = l' := by rw [hma']; simp
    rw [hglast, hdrop]
    dsimp only
    split_ifs with hcond
    case neg => exact ⟨⟨hb, hnd, hsum⟩, rfl⟩
    case pos =>
    set nap' : Nap :=
      { startTime := (st.naps.getD a dNap).startTime,
        endTime := (st.naps.getD a dNap).endTime,
        durationMinutes := (st.naps.getD a dNap).durationMinutes,
        isNightSleep := false,
        rawMessages := (st.naps.getD a dNap).rawMessages } with hnap'
    have hamem : a ∈ st.mornIdx := by rw [hma']; simp
    have halen : a < st.naps.length := hb a ((hmem3 a).2 (Or.inr (Or.inl hamem)))
    have hdurs : ∀ j, ((st.naps.set a nap').getD j dNap).durationMinutes =
        (st.naps.getD j dNap).durationMinutes := durations_set rfl
    have hsum_day : sumIdx (st.naps.set a nap') st.dayIdx = sumIdx st.naps st.dayIdx :=
      sumIdx_congr fun j _ => hdurs j
    have hsum_l : sumIdx (st.naps.set a nap') l' = sumIdx st.naps l' :=
      sumIdx_congr fun j _ => hdurs j
    have hsum_eve : sumIdx (st.naps.set a nap') st.eveIdx = sumIdx st.naps st.eveIdx :=
      sumIdx_congr fun j _ => hdurs j
    have hsum_a : sumIdx (st.naps.set a nap') [a] =
        (st.naps.getD a dNap).durationMinutes := by
      unfold sumIdx
      simp only [List.map_cons, List.map_nil, List.sum_cons, List.sum_nil, add_zero]
      exact hdurs a
    have hmornsum : sumIdx st.naps st.mornIdx =
        sumIdx st.naps l' + (st.naps.getD a dNap).durationMinutes := by
      rw [hma', sumIdx_append]; simp [sumIdx]
    have hinner : List.Perm (st.dayIdx ++ [a] ++ l') (st.dayIdx ++ st.mornIdx) := by
      rw [hma']
      have e1 : st.dayIdx ++ [a] ++ l' = st.dayIdx ++ a :: l' := by simp
      rw [e1]
      exact (List.Perm.append_left st.dayIdx (List.perm_append_singleton a l')).symm
    have hperm : List.Perm (st.dayIdx ++ [a] ++ l' ++ st.eveIdx) (idxConcat st) := by
      have := List.Perm.append_right st.eveIdx hinner
      simpa [idxConcat, List.append_assoc] using this
    refine ⟨⟨?_, ?_, ?_⟩, rfl⟩
    · intro i hi
      simp only [idxConcat, List.mem_append, List.mem_singleton, or_assoc,
        List.length_set] at hi ⊢
      rcases hi with hi | hi | hi | hi
      · exact hb i ((hmem3 i).2 (Or.inl hi))
      · subst hi; exact halen
      · exact hb i ((hmem3 i).2 (Or.inr (Or.inl (by rw [hma']; exact List.mem_append_left _ hi))))
      · exact hb i ((hmem3 i).2 (Or.inr (Or.inr hi)))
    · simp only [idxConcat]
      exact hperm.nodup_iff.mpr hnd
    · simp only [idxConcat, sumIdx_append, hsum_day, hsum_l, hsum_eve, hsum_a]
      omega

/-- The evening-boundary reclassification preserves the invariant and the
accumulated total. -/
theorem reclassifyEvening_inv (st : ClassState) (h : ClassInv st) :
    ClassInv (reclassifyEvening st) ∧
    (reclassifyEvening st).totalSleepTime = st.totalSleepTime := by
  obtain ⟨hb, hnd, hsum⟩ := h
  have hmem3 : ∀ i, i ∈ idxConcat st ↔
      (i ∈ st.dayIdx ∨ i ∈ st.mornIdx ∨ i ∈ st.eveIdx) := by
    intro i; simp [idxConcat, List.mem_append, or_assoc]
  unfold reclassifyEvening
  cases hev : st.eveIdx with
  | nil => exact ⟨⟨hb, hnd, hsum⟩, rfl⟩
  | cons i0 tl =>
    cases tl with
    | nil => exact ⟨⟨hb, hnd, hsum⟩, rfl⟩
    | cons i1 rest =>
      dsimp only
      split_ifs with hcond
      case neg => exact ⟨⟨hb, hnd, hsum⟩, rfl⟩
      case pos =>
      set nap' : Nap :=
        { startTime := (st.naps.getD i0 dNap).startTime,
          endTime := (st.naps.getD i0 dNap).endTime,
          durationMinutes := (st.naps.getD i0 dNap).durationMinutes,
          isNightSleep := false,
          rawMessages := (st.naps.getD i0 dNap).rawMessages } with hnap'
      have hamem : i0 ∈ st.eveIdx := by rw [hev]; simp
      have halen : i0 < st.naps.length := hb i0 ((hmem3 i0).2 (Or.inr (Or.inr hamem)))
      have hdurs : ∀ j, ((st.naps.set i0 nap').getD j dNap).durationMinutes =
          (st.naps.getD j dNap).durationMinutes := durations_set rfl
      have hsum_day : sumIdx (st.naps.set i0 nap') st.dayIdx = sumIdx st.naps st.dayIdx :=
        sumIdx_congr fun j _ => hdurs j
      have hsum_morn : sumIdx (st.naps.set i0 nap') st.mornIdx = sumIdx st.naps st.mornIdx :=
        sumIdx_congr fun j _ => hdurs j
      have hsum_tl : sumIdx (st.naps.set i0 nap') (i1 :: rest) =
          sumIdx st.naps (i1 :: rest) := sumIdx_congr fun j _ => hdurs j
      have hsum_i0 : sumIdx (st.naps.set i0 nap') [i0] =
          (st.naps.getD i0 dNap).durationMinutes := by
        unfold sumIdx
        simp only [List.map_cons, List.map_nil, List.sum_cons, List.sum_nil, add_zero]
        exact hdurs i0
      have hevesum : sumIdx st.naps st.eveIdx =
          (st.naps.getD i0 dNap).durationMinutes + sumIdx st.naps (i1 :: rest) := by
        rw [hev]; simp [sumIdx]
      have hperm : List.Perm (st.dayIdx ++ [i0] ++ st.mornIdx ++ (i1 :: rest))
          (idxConcat st) := by
        have e1 : st.dayIdx ++ [i0] ++ st.mornIdx ++ (i1 :: rest) =
            st.dayIdx ++ i0 :: (st.mornIdx ++ (i1 :: rest)) := by simp
        have e2 : idxConcat st = (st.dayIdx ++ st.mornIdx) ++ (i0 :: (i1 :: rest)) := by
          simp [idxConcat, hev, List.append_assoc]
        rw [e1, e2]
        simp only [List.append_assoc]
        exact List.Perm.append_left _ List.perm_middle.symm
      refine ⟨⟨?_, ?_, ?_⟩, rfl⟩
      · intro i hi
        simp only [idxConcat, List.mem_append, List.mem_singleton, or_assoc,
          List.length_set] at hi ⊢
        rcases hi with hi | hi | hi | hi
        · exact hb i ((hmem3 i).2 (Or.inl hi))
        · subst hi; exact halen
        · exact hb i ((hmem3 i).2 (Or.inr (Or.inl hi)))
        · exact hb i ((hmem3 i).2 (Or.inr (Or.inr (by rw [hev]; exact List.mem_cons_of_mem _ hi))))
      · simp only [idxConcat]
        exact hperm.nodup_iff.mpr hnd
      · simp only [idxConcat, List.tail_cons, sumIdx_append, hsum_day, hsum_morn,
          hsum_tl, hsum_i0]
        omega

/-- The day/night split partitions the valid sleep durations of the date. -/
theorem sleep_totals_partition (d : Int) (ss : List SessionMatch) :
    totalDaySleep d ss + totalNightSleep d ss = (validSleepDurations d ss).sum := by
  obtain ⟨h1inv, h1tot⟩ := reclassifyMorning_inv _ (classifySleep_inv d ss)
  obtain ⟨⟨hb2, hnd2, hsum2⟩, h2tot⟩ := reclassifyEvening_inv _ h1inv
  unfold totalDaySleep totalNightSleep
  dsimp only
  unfold processSleepDate
  rw [sumIdx_append]
  rw [h2tot, h1tot, classifySleep_total] at hsum2
  omega

/-- C4: for every `DaySummary` produced by `aggregateByDay`,
`totalDaySleepTime + totalNightSleepTime` equals the sum of the durations of
that date's closed sleep sessions whose duration lies strictly between 0 and
720 minutes. -/
theorem day_summary_sleep_partition (events : List ParsedEvent) (s : DaySummaryR)
    (hs : s ∈ aggregateByDay events) :
    s.totalDaySleepTime + s.totalNightSleepTime =
      (validSleepDurations s.date
        (matchSessions (List.insertionSort tsLe events)
          .START_SLEEP .STOP_SLEEP)).sum := by
  unfold aggregateByDay at hs
  rw [List.mem_insertionSort] at hs
  obtain ⟨d, hd, rfl⟩ := List.mem_map.1 hs
  have h := sleep_totals_partition d
    (matchSessions (List.insertionSort tsLe events) .START_SLEEP .STOP_SLEEP)
  unfold totalDaySleep totalNightSleep at h
  exact h

/-- Witness for C4 at a concrete event list with one night and one day sleep
session. -/
theorem day_summary_sleep_partition_witness :
    ((aggregateByDay sampleEvents).getD 0 dSummary).totalDaySleepTime +
      ((aggregateByDay sampleEvents).getD 0 dSummary).totalNightSleepTime =
      (validSleepDurations ((aggregateByDay sampleEvents).getD 0 dSummary).date
        (matchSessions (List.insertionSort tsLe sampleEvents)
          .START_SLEEP .STOP_SLEEP)).sum :=
  day_summary_sleep_partition sampleEvents _ (by decide)

/-- One classification step preserves the filter characterization. -/
theorem classifyStep_filtered (d : Int) (st : ClassState) (s : SessionMatch)
    (h : ClassFiltered st) : ClassFiltered (classifyStep d st s) := by
  obtain ⟨hflag, hmorn, heve, hday⟩ := h
  obtain ⟨sstart, sendEvt⟩ := s
  cases sendEvt with
  | none => exact ⟨hflag, hmorn, heve, hday⟩
  | some e =>
    simp only [classifyStep]
    by_cases hday0 : dayOf sstart.timestamp ≠ d
    · rw [if_pos hday0]; exact ⟨hflag, hmorn, heve, hday⟩
    · rw [if_neg hday0]
      push_neg at hday0
      simp only [dayOf] at hday0
      by_cases hdur : e.timestamp - sstart.timestamp ≤ 0 ∨ 720 ≤ e.timestamp - sstart.timestamp
      · rw [if_pos hdur]; exact ⟨hflag, hmorn, heve, hday⟩
      · rw [if_neg hdur]
        set n := st.naps.length with hn
        set nap : Nap :=
          { startTime := minOfDay sstart.timestamp, endTime := minOfDay e.timestamp,
            durationMinutes := e.timestamp - sstart.timestamp,
            isNightSleep := isNightTime (hourOf sstart.timestamp),
            rawMessages := [sstart.rawMessage, e.rawMessage] } with hnap
        have hsplit : sstart.timestamp = 1440 * d + minOfDay sstart.timestamp := by
          simp only [minOfDay]
          omega
        have hm_dec : minOfDay sstart.timestamp < NIGHT_END_HOUR * 60 ↔
            sstart.timestamp < d * 1440 + NIGHT_END_HOUR * 60 := by
          constructor <;> intro <;> omega
        have he_dec : NIGHT_START_HOUR * 60 < minOfDay sstart.timestamp ↔
            sstart.timestamp > d * 1440 + NIGHT_START_HOUR * 60 := by
          constructor <;> intro <;> omega
        have hme : ¬(minOfDay sstart.timestamp < NIGHT_END_HOUR * 60 ∧
            NIGHT_START_HOUR * 60 < minOfDay sstart.timestamp) := by
          have hv1 : NIGHT_END_HOUR = 8 := rfl
          have hv2 : NIGHT_START_HOUR = 21 := rfl
          omega
        have hgetnew : (st.naps ++ [nap]).getD n dNap = nap := by
          simp [hn, List.getD_eq_getElem?_getD]
        have hfilter : ∀ q : Nap → Bool,
            (List.range (n + 1)).filter (fun i => q ((st.naps ++ [nap]).getD i dNap)) =
              (List.range n).filter (fun i => q (st.naps.getD i dNap)) ++
                (if q nap then [n] else []) := by
          intro q
          rw [List.range_succ, List.filter_append]
          congr 1
          · exact List.filter_congr fun i hi => by
              rw [getD_naps_append _ (List.mem_range.1 hi)]
          · rw [List.filter_singleton, hgetnew]
            cases q nap <;> rfl
        have hflag' : ∀ x ∈ st.naps ++ [nap],
            x.isNightSleep = isNightTime (x.startTime / 60) := by
          intro x hx
          rcases List.mem_append.1 hx with hx | hx
          · exact hflag x hx
          · rw [List.mem_singleton.1 hx, hnap]; rfl
        have hlen : (st.naps ++ [nap]).length = n + 1 := by simp [hn]
        split_ifs with h1 h2
        · -- morning branch
          have hconj : isNightTime (hourOf sstart.timestamp) = true ∧
              sstart.timestamp < d * 1440 + NIGHT_END_HOUR * 60 := by
            simpa [Bool.and_eq_true, decide_eq_true_eq] using h1
          have hmtrue : isMorningNap nap = true := by
            rw [hnap]
            show (isNightTime (hourOf sstart.timestamp) &&
              decide (minOfDay sstart.timestamp < NIGHT_END_HOUR * 60)) = true
            rw [decide_eq_decide.mpr hm_dec]
            exact h1
          have hefalse : isEveningNap nap = false := by
            rw [hnap]
            show (isNightTime (hourOf sstart.timestamp) &&
              decide (NIGHT_START_HOUR * 60 < minOfDay sstart.timestamp)) = false
            have : decide (NIGHT_START_HOUR * 60 < minOfDay sstart.timestamp) = false :=
              decide_eq_false fun hgt => hme ⟨hm_dec.mpr hconj.2, hgt⟩
            rw [this, Bool.and_false]
          have hdfalse : isDayNap nap = false := by
            simp [isDayNap, hmtrue]
          refine ⟨hflag', ?_, ?_, ?_⟩
          · rw [hlen, hfilter, ← hmorn, if_pos hmtrue]
          · rw [hlen, hfilter, ← heve, if_neg (by simp [hefalse]), List.append_nil]
          · rw [hlen, hfilter, ← hday, if_neg (by simp [hdfalse]), List.append_nil]
        · -- evening branch
          have h1b : (isNightTime (hourOf sstart.timestamp) &&
              decide (sstart.timestamp < d * 1440 + NIGHT_END_HOUR * 60)) = false := by
            simpa using h1
          have hmfalse : isMorningNap nap = false := by
            rw [hnap]
            show (isNightTime (hourOf sstart.timestamp) &&
              decide (minOfDay sstart.timestamp < NIGHT_END_HOUR * 60)) = false
            rw [decide_eq_decide.mpr hm_dec]
            exact h1b
          have hetrue : isEveningNap nap = true := by
            rw [hnap]
            show (isNightTime (hourOf sstart.timestamp) &&
              decide (NIGHT_START_HOUR * 60 < minOfDay sstart.timestamp)) = true
            rw [decide_eq_decide.mpr he_dec]
            exact h2
          have hdfalse : isDayNap nap = false := by
            simp [isDayNap, hetrue]
          refine ⟨hflag', ?_, ?_, ?_⟩
          · rw [hlen, hfilter, ← hmorn, if_neg (by simp [hmfalse]), List.append_nil]
          · rw [hlen, hfilter, ← heve, if_pos hetrue]
          · rw [hlen, hfilter, ← hday, if_neg (by simp [hdfalse]), List.append_nil]
        · -- day branch
          have h1b : (isNightTime (hourOf sstart.timestamp) &&
              decide (sstart.timestamp < d * 1440 + NIGHT_END_HOUR * 60)) = false := by
            simpa using h1
          have h2b : (isNightTime (hourOf sstart.timestamp) &&
              decide (sstart.timestamp > d * 1440 + NIGHT_START_HOUR * 60)) = false := by
            simpa using h2
          have hmfalse : isMorningNap nap = false := by
            rw [hnap]
            show (isNightTime (hourOf sstart.timestamp) &&
              decide (minOfDay sstart.timestamp < NIGHT_END_HOUR * 60)) = false
            rw [decide_eq_decide.mpr hm_dec]
            exact h1b
          have hefalse : isEveningNap nap = false := by
            rw [hnap]
            show (isNightTime (hourOf sstart.timestamp) &&
              decide (NIGHT_START_HOUR * 60 < minOfDay sstart.timestamp)) = false
            rw [decide_eq_decide.mpr he_dec]
            exact h2b
          have hdtrue : isDayNap nap = true := by
            simp [isDayNap, hmfalse, hefalse]
          refine ⟨hflag', ?_, ?_, ?_⟩
          · rw [hlen, hfilter, ← hmorn, if_neg (by simp [hmfalse]), List.append_nil]
          · rw [hlen, hfilter, ← heve, if_neg (by simp [hefalse]), List.append_nil]
          · rw [hlen, hfilter, ← hday, if_pos hdtrue]

/-- C7 (amended): in the classification pass of `aggregateByDay`, every
recorded sleep session of the date is flagged as night sleep exactly when its
start hour lies in the configured night interval, and the morning, evening
and day index lists select exactly the night sessions starting strictly
before the night-end minute, the night sessions starting strictly after the
night-start minute (dayjs `isAfter`, so a night session starting exactly at
the night-start minute falls to the day list), and all remaining sessions. -/
theorem sleep_classification_filtered (d : Int) (ss : List SessionMatch) :
    ClassFiltered (classifySleep d ss) := by
  have hbase : ClassFiltered emptyClassState := by
    refine ⟨?_, ?_, ?_, ?_⟩ <;> simp [emptyClassState]
  have hgen : ∀ (l : List SessionMatch) (st : ClassState), ClassFiltered st →
      ClassFiltered (l.foldl (classifyStep d) st) := by
    intro l
    induction l with
    | nil => intro st h; exact h
    | cons s l ih => intro st h; exact ih _ (classifyStep_filtered d st s h)
  exact hgen ss _ hbase

/-- Setting one nap yields that nap at its own index. -/
theorem getD_set_self {naps : List Nap} {i : Nat} (x : Nap) (h : i < naps.length) :
    (naps.set i x).getD i dNap = x := by
  rw [List.getD_eq_getElem?_getD, List.getElem?_set_self]
  · rcases h' : naps[i]? with _ | v
    · rw [List.getElem?_eq_none_iff] at h'; omega
    · simp [h']
  · exact h

/-- If the evening list has at most one index, the evening reclassification
leaves the state unchanged. -/
theorem reclassifyEvening_short (st : ClassState) (h : st.eveIdx.length ≤ 1) :
    reclassifyEvening st = st := by
  rcases he : st.eveIdx with _ | ⟨i0, t⟩
  · unfold reclassifyEvening; rw [he]
  · rcases t with _ | ⟨i1, rest⟩
    · unfold reclassifyEvening; rw [he]
    · rw [he] at h; simp at h

/-- The morning reclassification at an explicit morning list of length at
least two, when its boundary test holds: field-level description of the
update. -/
theorem reclassifyMorning_spec (st : ClassState) (pre : List Nat) (iPrev iLast : Nat)
    (hma : st.mornIdx = pre ++ [iPrev, iLast])
    (hlast : iLast < st.naps.length)
    (hcond : 2 * ((st.naps.getD iLast dNap).startTime -
          (st.naps.getD iPrev dNap).endTime) >
        (st.naps.getD iLast dNap).durationMinutes ∧
      (st.naps.getD iLast dNap).durationMinutes ≥ 30) :
    (reclassifyMorning st).mornIdx = pre ++ [iPrev] ∧
    (reclassifyMorning st).eveIdx = st.eveIdx ∧
    (reclassifyMorning st).dayIdx = st.dayIdx ++ [iLast] ∧
    ((reclassifyMorning st).naps.getD iLast dNap).isNightSleep = false ∧
    (∀ j : Nat, ((reclassifyMorning st).naps.getD j dNap).durationMinutes =
      (st.naps.getD j dNap).durationMinutes) ∧
    (∀ idx : List Nat, sumIdx (reclassifyMorning st).naps idx = sumIdx st.naps idx) := by
  have hsplit : st.mornIdx = (pre ++ [iPrev]) ++ [iLast] := by rw [hma]; simp
  have hlen : st.mornIdx.length ≥ 2 := by rw [hma]; simp
  have hglast : st.mornIdx.getLastD 0 = iLast := by rw [hsplit]; simp
  have hdrop : st.mornIdx.dropLast = pre ++ [iPrev] := by rw [hsplit]; simp
  have hgprev : (pre ++ [iPrev]).getLastD 0 = iPrev := by simp
  unfold reclassifyMorning
  rw [if_pos hlen]
  dsimp only
  rw [hglast, hdrop, hgprev, if_pos hcond]
  refine ⟨rfl, rfl, rfl, ?_, ?_, ?_⟩
  · rw [getD_set_self _ hlast]
  · intro j
    dsimp only
    refine durations_set ?_ j
    rfl
  · intro idx
    refine sumIdx_congr fun j _ => ?_
    dsimp only
    refine durations_set ?_ j
    rfl

/-- Setting an index that is out of range, or a different index, leaves a
`getD` lookup unchanged. -/
theorem getD_set_untouched {naps : List Nap} {i j : Nat} (x : Nap)
    (h : i = j → ¬ i < naps.length) :
    (naps.set i x).getD j dNap = naps.getD j dNap := by
  by_cases hij : i = j
  · subst hij
    rw [List.getD_eq_getElem?_getD, List.getD_eq_getElem?_getD, List.getElem?_set]
    simp [show ¬ i < naps.length from h rfl,
      List.getElem?_eq_none (by omega : naps.length ≤ i)]
  · rw [List.getD_eq_getElem?_getD, List.getD_eq_getElem?_getD, List.getElem?_set_ne hij]

/-- Setting one nap whose night flag is off never turns any night flag on. -/
theorem flag_set_false {naps : List Nap} {i : Nat} {x : Nap}
    (hx : x.isNightSleep = false) :
    ∀ j, (naps.getD j dNap).isNightSleep = false →
      ((naps.set i x).getD j dNap).isNightSleep = false := by
  intro j hj
  by_cases hij : i = j
  · subst hij
    by_cases hi : i < naps.length
    · rw [List.getD_eq_getElem?_getD, List.getElem?_set_self]
      · simpa using hx
      · exact hi
    · rw [getD_set_untouched x fun _ => hi]; exact hj
  · rw [getD_set_untouched x fun he => absurd he hij]; exact hj

/-- `sumIdx` only depends on the index list up to permutation. -/
theorem sumIdx_perm (naps : List Nap) {a b : List Nat} (h : a.Perm b) :
    sumIdx naps a = sumIdx naps b :=
  List.Perm.sum_eq (h.map _)

/-- Splitting the duration of one listed index out of a `sumIdx` total. -/
theorem sumIdx_erase (naps : List Nap) (idx : List Nat) (i : Nat) (h : i ∈ idx) :
    sumIdx naps idx =
      (naps.getD i dNap).durationMinutes + sumIdx naps (idx.erase i) := by
  rw [sumIdx_perm naps (List.perm_cons_erase h)]
  unfold sumIdx
  simp

/-- Frame facts of the evening reclassification, whether or not it fires: the
morning list is untouched, the day list only grows, the evening list only
shrinks, every duration is kept, and a night flag that is off stays off. -/
theorem reclassifyEvening_frame (st : ClassState) :
    (reclassifyEvening st).mornIdx = st.mornIdx ∧
    (∀ i, i ∈ st.dayIdx → i ∈ (reclassifyEvening st).dayIdx) ∧
    (∀ i, i ∈ (reclassifyEvening st).eveIdx → i ∈ st.eveIdx) ∧
    (∀ j, ((reclassifyEvening st).naps.getD j dNap).durationMinutes =
      (st.naps.getD j dNap).durationMinutes) ∧
    (∀ j, (st.naps.getD j dNap).isNightSleep = false →
      ((reclassifyEvening st).naps.getD j dNap).isNightSleep = false) := by
  rcases he : st.eveIdx with _ | ⟨i0, t⟩
  · rw [reclassifyEvening_short st (by rw [he]; simp)]
    exact ⟨rfl, fun i h => h, fun i h => he ▸ h, fun j => rfl, fun j h => h⟩
  · rcases t with _ | ⟨i1, rest⟩
    · rw [reclassifyEvening_short st (by rw [he]; simp)]
      exact ⟨rfl, fun i h => h, fun i h => he ▸ h, fun j => rfl, fun j h => h⟩
    · unfold reclassifyEvening
      rw [he]
      dsimp only
      split_ifs with hc
      · refine ⟨rfl, ?_, ?_, ?_, ?_⟩
        · intro i h
          exact List.mem_append_left _ h
        · intro i h
          rw [List.tail_cons] at h
          exact List.mem_cons_of_mem _ h
        · intro j
          refine durations_set ?_ j
          rfl
        · intro j hj
          refine flag_set_false ?_ j hj
          rfl
      · exact ⟨rfl, fun i h => h, fun i h => he ▸ h, fun j => rfl, fun j h => h⟩

/-- C2: in `aggregateByDay`, when a date has at least two morning night-sleep
sessions and the last one started more than half its own duration after the
end of the previous one and lasts at least 30 minutes, that session loses its
night flag, is dropped from the morning list and added to the day list (so
it is in neither list summed into `totalNightSleepTime`), and its duration is
one of the addends of `totalDaySleepTime`. -/
theorem morning_nap_reclassification (d : Int) (ss : List SessionMatch)
    (pre : List Nat) (iPrev iLast : Nat)
    (hma : (classifySleep d ss).mornIdx = pre ++ [iPrev, iLast])
    (hlast : iLast < (classifySleep d ss).naps.length)
    (hcond : 2 * (((classifySleep d ss).naps.getD iLast dNap).startTime -
          ((classifySleep d ss).naps.getD iPrev dNap).endTime) >
        ((classifySleep d ss).naps.getD iLast dNap).durationMinutes ∧
      ((classifySleep d ss).naps.getD iLast dNap).durationMinutes ≥ 30) :
    ((processSleepDate d ss).naps.getD iLast dNap).isNightSleep = false ∧
    (processSleepDate d ss).mornIdx = pre ++ [iPrev] ∧
    iLast ∉ (processSleepDate d ss).mornIdx ∧
    iLast ∉ (processSleepDate d ss).eveIdx ∧
    iLast ∈ (processSleepDate d ss).dayIdx ∧
    totalNightSleep d ss = sumIdx (processSleepDate d ss).naps
      ((pre ++ [iPrev]) ++ (processSleepDate d ss).eveIdx) ∧
    totalDaySleep d ss =
      ((classifySleep d ss).naps.getD iLast dNap).durationMinutes +
        sumIdx (processSleepDate d ss).naps
          ((processSleepDate d ss).dayIdx.erase iLast) := by
  obtain ⟨hm1, he1, hd1, hf1, hdur1, hs1⟩ :=
    reclassifyMorning_spec (classifySleep d ss) pre iPrev iLast hma hlast hcond
  obtain ⟨em, ed, ee, edur, eflag⟩ :=
    reclassifyEvening_frame (reclassifyMorning (classifySleep d ss))
  obtain ⟨hbound, hnd, hsum⟩ := classifySleep_inv d ss
  simp only [idxConcat] at hnd
  rw [List.nodup_append] at hnd
  obtain ⟨hnd1, hnd2, hdisj12⟩ := hnd
  rw [List.nodup_append] at hnd1
  obtain ⟨hndday, hndm, hdisjdm⟩ := hnd1
  have hmemm : iLast ∈ (classifySleep d ss).mornIdx := by rw [hma]; simp
  have hnotpre : iLast ∉ pre ++ [iPrev] := by
    rw [hma] at hndm
    have hsplit : pre ++ [iPrev, iLast] = (pre ++ [iPrev]) ++ [iLast] := by simp
    rw [hsplit, List.nodup_append] at hndm
    intro hmem
    exact hndm.2.2 hmem (List.mem_singleton_self iLast)
  have hnoteve : iLast ∉ (classifySleep d ss).eveIdx := by
    intro hmem
    exact hdisj12 (List.mem_append_right _ hmemm) hmem
  have hproc : processSleepDate d ss =
      reclassifyEvening (reclassifyMorning (classifySleep d ss)) := rfl
  rw [hproc]
  have hmorn2 : (reclassifyEvening (reclassifyMorning (classifySleep d ss))).mornIdx =
      pre ++ [iPrev] := by rw [em, hm1]
  have hday2 : iLast ∈
      (reclassifyEvening (reclassifyMorning (classifySleep d ss))).dayIdx :=
    ed iLast (by rw [hd1]; simp)
  have hdurfinal :
      ((reclassifyEvening (reclassifyMorning (classifySleep d ss))).naps.getD
          iLast dNap).durationMinutes =
        ((classifySleep d ss).naps.getD iLast dNap).durationMinutes := by
    rw [edur iLast, hdur1 iLast]
  refine ⟨eflag iLast hf1, hmorn2, ?_, ?_, hday2, ?_, ?_⟩
  · rw [hmorn2]; exact hnotpre
  · intro hmem
    exact hnoteve (by rw [← he1]; exact ee iLast hmem)
  · unfold totalNightSleep processSleepDate
    dsimp only
    rw [hmorn2]
  · unfold totalDaySleep processSleepDate
    dsimp only
    rw [sumIdx_erase _ _ iLast hday2, hdurfinal]

/-- Witness for C2 at two concrete morning naps (01:00-02:00 and 05:00-06:00
on day 0): the pre-gap of the second nap is 180 minutes, more than half its
60-minute duration, so it is reclassified as day sleep. -/
theorem morning_nap_reclassification_witness :
    ((classifySleep 0 sampleMorningSessions).mornIdx = [] ++ [0, 1] ∧
     1 < (classifySleep 0 sampleMorningSessions).naps.length) ∧
    (((processSleepDate 0 sampleMorningSessions).naps.getD 1 dNap).isNightSleep = false ∧
     totalDaySleep 0 sampleMorningSessions =
       ((classifySleep 0 sampleMorningSessions).naps.getD 1 dNap).durationMinutes +
         sumIdx (processSleepDate 0 sampleMorningSessions).naps
           ((processSleepDate 0 sampleMorningSessions).dayIdx.erase 1)) :=
  ⟨⟨by decide, by decide⟩,
   ⟨(morning_nap_reclassification 0 sampleMorningSessions [] 0 1 (by decide) (by decide)
       (by decide)).1,
    (morning_nap_reclassification 0 sampleMorningSessions [] 0 1 (by decide) (by decide)
       (by decide)).2.2.2.2.2.2⟩⟩
